import Mathlib

/-!
# Camera calibration controller (`camera.h`, `camera.cpp`)

A shallow embedding of the class `camera_ns::Camera`.  The controller is a record of its
member variables; every member function is a function from the controller (and the outside
world) to an outcome that carries the controller as the call left it, also when the call
throws, because a C++ exception does not undo the assignments made before it.

The computer-vision library, the capture device, the keyboard and the stream library are
collaborators: their behaviour is a parameter (`Ext`) or an input (`World`).  The stream
library of the C++ standard is also given in full (`Iostream`), the formatted output and
input of `uint16_t` and `double` character by character, and `standard_streams` says of
the collaborators that their stream library is that one.
-/

namespace camera_ns

/-! ## Values -/

/-- An IEEE double, identified by its 64-bit pattern. -/
structure F64 where
  bits : Nat
deriving DecidableEq, Repr

/-- An IEEE single, identified by its 32-bit pattern. -/
structure F32 where
  bits : Nat
deriving DecidableEq, Repr

/-- The double `0.0`. -/
def F64.zero : F64 := ⟨0⟩

/-- The double `1.0` (bit pattern `0x3FF0000000000000`). -/
def F64.one : F64 := ⟨4607182418800017408⟩

/-- Whether the sign bit of the double is set. -/
def F64.negative (v : F64) : Bool := v.bits / 2 ^ 63 % 2 == 1

/-- Whether the double is finite: its exponent field is not all ones (neither an infinity
nor a NaN). -/
def F64.finite (v : F64) : Bool := v.bits / 2 ^ 52 % 2048 != 2047

/-- The magnitude of a finite double as a fraction, numerator and denominator: with the
exponent field `e` and the fraction field `f`, `(f + 2 ^ 52) * 2 ^ (e - 1075)`, and
`f * 2 ^ (-1074)` when `e` is zero (a subnormal, or zero). -/
def F64.magnitude (v : F64) : Nat × Nat :=
  let expo := v.bits / 2 ^ 52 % 2048
  let frac := v.bits % 2 ^ 52
  let m := if expo = 0 then frac else frac + 2 ^ 52
  let e := if expo = 0 then 1 else expo
  (m * 2 ^ (e - 1075), 2 ^ (1075 - e))

/-- The float `0.0f`. -/
def F32.zero : F32 := ⟨0⟩

/-- The comparison `x == 0.0f`: true for `+0.0f` and for `-0.0f` (sign bit ignored). -/
def F32.isZero (x : F32) : Bool := x.bits % 2147483648 == 0

/-- The type `cv::Size`: the constructor takes the width first, then the height. -/
structure Size where
  width : Nat
  height : Nat
deriving DecidableEq, Repr

/-- A `cv::Mat` of doubles (`CV_64F`): its row and column counts and its entries. -/
structure Mat where
  rows : Nat
  cols : Nat
  data : Nat → Nat → F64

/-- The access `m.at<double>(r, c)` as an rvalue. -/
def Mat.atD (m : Mat) (r c : Nat) : F64 := m.data r c

/-- The assignment `m.at<double>(r, c) = v`. -/
def Mat.setD (m : Mat) (r c : Nat) (v : F64) : Mat :=
  { m with data := fun i j => if i = r ∧ j = c then v else m.data i j }

/-- The matrix `cv::Mat::eye(rows, cols, CV_64F)`. -/
def Mat.eye (rows cols : Nat) : Mat :=
  ⟨rows, cols, fun i j => if i = j then F64.one else F64.zero⟩

/-- The matrix `cv::Mat::zeros(rows, cols, CV_64F)`. -/
def Mat.zeros (rows cols : Nat) : Mat :=
  ⟨rows, cols, fun _ _ => F64.zero⟩

/-- The matrix `cv::Mat(cv::Size(cols, rows), CV_64F)`: allocated, entries not initialised;
`junk` is whatever the fresh memory holds. -/
def Mat.create (rows cols : Nat) (junk : Nat → Nat → F64) : Mat :=
  ⟨rows, cols, junk⟩

/-- A `cv::Mat` holding an image (a frame): its dimensions and its pixel bytes. -/
structure Image where
  rows : Nat
  cols : Nat
  pixels : List Nat
deriving DecidableEq, Repr

/-- The default-constructed `cv::Mat`. -/
def Image.blank : Image := ⟨0, 0, []⟩

/-- The test `img.empty()`: no element at all. -/
def Image.empty (img : Image) : Bool := img.rows * img.cols == 0

/-- The call `img.size()`. -/
def Image.size (img : Image) : Size := ⟨img.cols, img.rows⟩

/-- The enum `CorrectionType`; `other` stands for a value outside the two enumerators,
which a `switch` sends to its `default` label. -/
inductive CorrectionType where
  | remap
  | undistort
  | other (n : Nat)
deriving DecidableEq, Repr

/-- The enum `ExceptionID`. -/
inductive ExceptionID where
  | camera_open_failure
  | camera_wrong_id
  | images_count_to_small
  | camera_reading_failure
  | no_calibration_data
  | no_captured_frame
  | no_calibration_images
  | wrong_chessboard_dimensions
  | wrong_chessboard_square_dimension
  | wrong_calibration_file_name
  | empty_calibration_file_name
  | empty_frame
deriving DecidableEq, Repr

/-- The struct `ExceptionMessage`. -/
structure ExceptionMessage where
  msg : String
  id : ExceptionID
deriving DecidableEq, Repr

/-- What a member function can throw: the structured fault of the class, the
`std::ios_base::failure` of a stream whose exception mask is set, or a `cv::Exception`
of the vision library. -/
inductive Thrown where
  | fault (em : ExceptionMessage)
  | stream_failure
  | cv_exception
deriving DecidableEq, Repr

/-- How a call ends: it returns a value or it throws. -/
inductive Res (α : Type) where
  | ok (a : α)
  | thrown (t : Thrown)
deriving DecidableEq, Repr

/-- The kind of the structured fault a call ended with, if it ended with one. -/
def Res.kind {α : Type} : Res α → Option ExceptionID
  | .thrown (.fault em) => some em.id
  | _ => Option.none

/-- Whether the call returned normally. -/
def Res.returned {α : Type} : Res α → Bool
  | .ok _ => true
  | .thrown _ => false

/-- A detected corner in image space. -/
abbrev Point2f := F32 × F32

/-- A corner in world space. -/
abbrev Point3f := F32 × F32 × F32

/-- The class `cv::VideoCapture`, as far as the controller observes it. -/
structure VideoCapture where
  opened : Bool
deriving DecidableEq, Repr

/-- The member variables of `Camera`. -/
structure Camera where
  chessboard_found : Bool
  calibration_in_progress : Bool
  calibrated : Bool
  remap_first_entry : Bool
  camera_id : Int
  chessboard_square_dimension : F32
  chessboard_width : Nat
  chessboard_height : Nat
  number_of_images_to_calibrate : Nat
  calibartion_image_number : Nat
  camera_calibration_file_name : String
  chessboard_found_points : List Point2f
  chessboard_dimensions : Size
  cam : VideoCapture
  captured_frame : Image
  cam_matrix : Mat
  dist_coeffs : Mat
  frame_compensated : Image
  remap_map1 : Image
  remap_map2 : Image
  frame_size : Size

/-! ## Collaborators -/

/-- The libraries the controller calls into. -/
structure Ext where
  /-- The call `findChessboardCorners(image, patternSize, corners, flags)`. -/
  findChessboardCorners : Image → Size → Bool × List Point2f
  /-- The product `int * float` of `create_known_board_positions`. -/
  scale : Nat → F32 → F32
  /-- The call `calibrateCamera`: the new camera matrix and distortion coefficients, or
  nothing when the library throws. -/
  calibrateCamera : List (List Point3f) → List (List Point2f) → Size → Mat → Mat →
    Option (Mat × Mat)
  /-- The two maps of `initUndistortRectifyMap` over `getOptimalNewCameraMatrix`. -/
  initUndistortRectifyMap : Mat → Mat → Size → Image × Image
  /-- The call `remap(src, dst, map1, map2, INTER_LINEAR)`. -/
  remap : Image → Image → Image → Image
  /-- The call `undistort` over `getOptimalNewCameraMatrix`. -/
  undistort : Image → Mat → Mat → Size → Image
  /-- The characters `operator<<` writes for an `uint16_t`. -/
  putU16 : Fin 65536 → List Char
  /-- The characters `operator<<` writes for a `double`. -/
  putDouble : F64 → List Char
  /-- The conversion of `operator>>` into an `uint16_t`, from the characters ahead in the
  line (the first of them not white space): the value and the characters left, or nothing
  when the extraction sets `failbit`. -/
  getU16 : List Char → Option (Fin 65536 × List Char)
  /-- The conversion of `operator>>` into a `double`, in the same way. -/
  getDouble : List Char → Option (F64 × List Char)

/-- The characters of a text file, or those still ahead of an input stream, line by line,
each line without the line feed that ends it. -/
abbrev Lines := List (List Char)

/-- The outside world. -/
structure World where
  /-- Whether `cam.open(id)` succeeds. -/
  device_ok : Int → Bool
  /-- The results of the coming `cam.read` calls; `none` is a failed read. -/
  frames : List (Option Image)
  /-- The results of the coming `cv::waitKey` calls. -/
  keys : List Int
  /-- The files that can be opened for reading, with their characters. -/
  files : String → Option Lines
  /-- Whether a file of that name can be opened for writing. -/
  writable : String → Bool
  /-- Whether a file of that name keeps what is written to it, to be read back later (a
  regular file does, `/dev/null` does not). -/
  stores : String → Bool
  /-- The contents of freshly allocated matrix memory. -/
  junk : Nat → Nat → F64
  /-- A record of the calls of `calibration_backend`: the images each was given. -/
  backend_calls : List (List Image)

/-- The world after those lines have been written to a file of that name, opened for
writing (created, or truncated): the file holds them if it keeps what is written to it. -/
def World.write (w : World) (name : String) (lines : Lines) : World :=
  { w with files := fun f => if f = name ∧ w.stores name = true then some lines else w.files f }

/-- The end of a call: how it ended, the controller and the world it leaves. -/
structure Out (α : Type) where
  res : Res α
  cam : Camera
  world : World

/-! ## The stream library

The formatted output and input of the standard library as `save_camera_calibration` and
`load_camera_calibration_data` use it: `operator<<` and `operator>>` for `uint16_t` and for
`double`, the stream flags and the precision left at their defaults, in the C locale. -/

namespace Iostream

/-- The test `isspace` of the C locale: space, tab, line feed, vertical tab, form feed,
carriage return. -/
def is_space (ch : Char) : Bool := ch.toNat == 32 || (9 ≤ ch.toNat && ch.toNat ≤ 13)

/-- The test `isdigit`. -/
def is_digit (ch : Char) : Bool := 48 ≤ ch.toNat && ch.toNat ≤ 57

/-- The white space a formatted extraction skips first. -/
def skip_ws : List Char → List Char
  | [] => []
  | ch :: rest => if is_space ch then skip_ws rest else ch :: rest

/-- A maximal run of decimal digits: its value on top of `acc`, its length on top of
`count`, and the characters after it. -/
def take_digits : List Char → Nat → Nat → Nat × Nat × List Char
  | [], acc, count => (acc, count, [])
  | ch :: rest, acc, count =>
    if is_digit ch then take_digits rest (acc * 10 + (ch.toNat - 48)) (count + 1)
    else (acc, count, ch :: rest)

/-- The number a run of decimal digits denotes, on top of `acc`. -/
def digits_value : List Char → Nat → Nat
  | [], acc => acc
  | ch :: rest, acc => digits_value rest (acc * 10 + (ch.toNat - 48))

/-- An optional sign: whether it is a minus, and the characters after it. -/
def take_sign : List Char → Bool × List Char
  | '-' :: rest => (true, rest)
  | '+' :: rest => (false, rest)
  | s => (false, s)

/-- The text `operator<<` writes for an `uint16_t`: its decimal digits. -/
def put_uint16 (n : Fin 65536) : List Char := Nat.toDigits 10 n.val

/-- The value `operator>>` extracts into an `uint16_t`: an optional sign and a run of
digits; no digit, or a value above 65535, sets `failbit`; a minus sign negates modulo
65536. -/
def get_uint16 (s : List Char) : Option (Fin 65536 × List Char) :=
  let sg := take_sign s
  let d := take_digits sg.2 0 0
  if d.2.1 = 0 then none
  else if h : d.1 < 65536 then
    some (if sg.1 then ⟨(65536 - d.1) % 65536, Nat.mod_lt _ (by decide)⟩ else ⟨d.1, h⟩, d.2.2)
  else none

/-- The quotient `num / den` rounded to the nearest integer, a tie to the even one. -/
def round_half_even (num den : Nat) : Nat :=
  let q := num / den
  let r := num % den
  if 2 * r > den ∨ (2 * r = den ∧ q % 2 = 1) then q + 1 else q

/-- The exponent of the positive rational `p / q` to the base `b`: the greatest `x` with
`b ^ x ≤ p / q`, found from the numbers of digits of `p` and of `q`. -/
def floor_log (b p q : Nat) : Int :=
  let x : Int := ((Nat.toDigits b p).length : Int) - ((Nat.toDigits b q).length : Int)
  if q * b ^ x.toNat ≤ p * b ^ (-x).toNat then x else x - 1

/-- The digits of a list with the zeros at its end removed. -/
def strip_zeros (ds : List Char) : List Char :=
  (ds.reverse.dropWhile (· == '0')).reverse

/-- The exponent of the scientific style: a sign and at least two digits. -/
def put_exponent (x : Int) : List Char :=
  (if x < 0 then '-' else '+') ::
    (if x.natAbs < 10 then '0' :: Nat.toDigits 10 x.natAbs else Nat.toDigits 10 x.natAbs)

/-- The six significant digits `d` of a number between `10 ^ x` and `10 ^ (x + 1)` in
the style `%g`: scientific when the exponent is below -4 or not below the precision,
fixed otherwise, the zeros at the end of the fraction removed in both. -/
def put_digits (d : Nat) (x : Int) : List Char :=
  let ds := Nat.toDigits 10 d
  if x < -4 ∨ x ≥ 6 then
    let frac := strip_zeros (ds.drop 1)
    ds.take 1 ++ (if frac = [] then [] else '.' :: frac) ++ 'e' :: put_exponent x
  else if x < 0 then
    '0' :: '.' :: List.replicate ((-x).toNat - 1) '0' ++ strip_zeros ds
  else
    let frac := strip_zeros (ds.drop (x.toNat + 1))
    ds.take (x.toNat + 1) ++ (if frac = [] then [] else '.' :: frac)

/-- The style `%g` with precision 6 for the positive rational `p / q`: the quotient is
rounded to six significant digits, a tie to the even one. -/
def put_positive (p q : Nat) : List Char :=
  let x0 := floor_log 10 p q
  let k : Int := 5 - x0
  let d0 := round_half_even (p * 10 ^ k.toNat) (q * 10 ^ (-k).toNat)
  if d0 = 1000000 then put_digits 100000 (x0 + 1) else put_digits d0 x0

/-- The text `operator<<` writes for a `double` with the default flags and the default
precision of 6. -/
def put_double (v : F64) : List Char :=
  let sign : List Char := if v.negative then ['-'] else []
  if v.finite then
    if v.magnitude.1 = 0 then sign ++ ['0']
    else sign ++ put_positive v.magnitude.1 v.magnitude.2
  else
    sign ++ (if v.bits % 2 ^ 52 = 0 then ['i', 'n', 'f'] else ['n', 'a', 'n'])

/-- The bit pattern of the double nearest to the positive rational `p / q`, a tie to the
even one; nothing when that is beyond the greatest finite double. -/
def nearest_double (p q : Nat) : Option Nat :=
  let e : Int := max (floor_log 2 p q - 52) (-1074)
  let m := round_half_even (p * 2 ^ (-e).toNat) (q * 2 ^ e.toNat)
  let bits := (e + 1074).toNat * 2 ^ 52 + m
  if bits < 2047 * 2 ^ 52 then some bits else none

/-- The characters `operator>>` takes for a `double` after its sign: digits with at most
one decimal point among them, and an optional exponent.  The result is the digits of the
mantissa read as one number, the power of ten that number is to be multiplied by, and the
characters left; nothing when the mantissa has no digit or the exponent has none. -/
def scan_unsigned (s : List Char) : Option (Nat × Int × List Char) :=
  let i := take_digits s 0 0
  let f : Nat × Nat × List Char :=
    match i.2.2 with
    | '.' :: rest => take_digits rest i.1 0
    | rest => (i.1, 0, rest)
  if i.2.1 + f.2.1 = 0 then none
  else
    match f.2.2 with
    | 'e' :: rest | 'E' :: rest =>
      let es := take_sign rest
      let ed := take_digits es.2 0 0
      if ed.2.1 = 0 then none
      else some (f.1, (if es.1 then -(ed.1 : Int) else ed.1) - f.2.1, ed.2.2)
    | rest => some (f.1, -(f.2.1 : Int), rest)

/-- The double nearest to `n * 10 ^ dexp`, with its sign; nothing when that is beyond the
greatest finite double.  A number below `10 ^ (-324)` is nearest to zero and one not below
`10 ^ 309` is beyond every double: the number of digits of `n` settles both without the
power of ten. -/
def convert_double (negative : Bool) (n : Nat) (dexp : Int) : Option F64 :=
  let sign := if negative then 2 ^ 63 else 0
  let len : Int := (Nat.toDigits 10 n).length
  if n = 0 ∨ len + dexp ≤ -324 then some ⟨sign⟩
  else if len + dexp ≥ 310 then none
  else (nearest_double (n * 10 ^ dexp.toNat) (10 ^ (-dexp).toNat)).map fun bits =>
    ⟨sign + bits⟩

/-- The value `operator>>` extracts into a `double`, and the characters left; nothing
when the extraction sets `failbit`. -/
def get_double (s : List Char) : Option (F64 × List Char) :=
  let sg := take_sign s
  match scan_unsigned sg.2 with
  | none => none
  | some (n, dexp, rest) => (convert_double sg.1 n dexp).map fun v => (v, rest)

end Iostream

/-! ## Setters, getters and the constructor -/

namespace Camera

/-- The setter `Camera::set_chessboard_square_dimension`. -/
def set_chessboard_square_dimension (c : Camera) (arg_dim : F32) : Camera :=
  { c with chessboard_square_dimension := arg_dim }

/-- The setter `Camera::set_chessboard_width`; the argument is an `uint8_t`. -/
def set_chessboard_width (c : Camera) (arg_width : Nat) : Camera :=
  { c with chessboard_width := arg_width % 256 }

/-- The setter `Camera::set_chessboard_height`; the argument is an `uint8_t`. -/
def set_chessboard_height (c : Camera) (arg_height : Nat) : Camera :=
  { c with chessboard_height := arg_height % 256 }

/-- The setter `Camera::set_chessboard_dimensions(arg_height, arg_width)`: the pattern
size is built as `cv::Size(chessboard_height, chessboard_width)`. -/
def set_chessboard_dimensions (c : Camera) (arg_height arg_width : Nat) : Camera :=
  let c1 := set_chessboard_width c arg_width
  let c2 := set_chessboard_height c1 arg_height
  { c2 with chessboard_dimensions := ⟨c2.chessboard_height, c2.chessboard_width⟩ }

/-- The setter `Camera::set_video_source`. -/
def set_video_source (c : Camera) (arg_camera_id : Int) : Camera :=
  { c with camera_id := arg_camera_id }

/-- The setter `Camera::set_camera_calibration_results_file_name`. -/
def set_camera_calibration_results_file_name (c : Camera) (arg_file_name : String) : Camera :=
  { c with camera_calibration_file_name := arg_file_name }

/-- The setter `Camera::set_calibrated`. -/
def set_calibrated (c : Camera) (arg_calibrated : Bool) : Camera :=
  { c with calibrated := arg_calibrated }

/-- The setter `Camera::set_number_of_images_to_calibrate`; the argument is an `uint8_t`. -/
def set_number_of_images_to_calibrate (c : Camera) (arg_num : Nat) : Camera :=
  { c with number_of_images_to_calibrate := arg_num % 256 }

/-- The setter `Camera::set_default_camera_calibration_coefs`. -/
def set_default_camera_calibration_coefs (c : Camera) : Camera :=
  { c with cam_matrix := Mat.eye 3 3, dist_coeffs := Mat.zeros 3 3 }

/-- The getter `Camera::get_chessboard_width`. -/
def get_chessboard_width (c : Camera) : Nat := c.chessboard_width

/-- The getter `Camera::get_chessboard_height`. -/
def get_chessboard_height (c : Camera) : Nat := c.chessboard_height

/-- The getter `Camera::get_number_of_images_to_calibrate`. -/
def get_number_of_images_to_calibrate (c : Camera) : Nat := c.number_of_images_to_calibrate

/-- The getter `Camera::get_chessboard_dimensions`. -/
def get_chessboard_dimensions (c : Camera) : Size := c.chessboard_dimensions

/-- The getter `Camera::get_frame_raw`. -/
def get_frame_raw (c : Camera) : Image := c.captured_frame

/-- The getter `Camera::get_frame_calibrated`. -/
def get_frame_calibrated (c : Camera) : Image := c.frame_compensated

/-- The getter `Camera::get_chessboard_square_dimension`. -/
def get_chessboard_square_dimension (c : Camera) : F32 := c.chessboard_square_dimension

/-- The getter `Camera::get_camera_id`. -/
def get_camera_id (c : Camera) : Int := c.camera_id

/-- The getter `Camera::get_camera_calibration_results_file_name`. -/
def get_camera_calibration_results_file_name (c : Camera) : String :=
  c.camera_calibration_file_name

/-- The getter `Camera::get_calibration_in_progress`. -/
def get_calibration_in_progress (c : Camera) : Bool := c.calibration_in_progress

/-- The getter `Camera::get_calibrated`. -/
def get_calibrated (c : Camera) : Bool := c.calibrated

/-- The members as they are before the body of the constructor runs: the class-type
members are default-constructed, the scalars hold whatever the storage held (`raw`). -/
def uninitialised (raw : Camera) : Camera :=
  { raw with
    camera_calibration_file_name := ""
    chessboard_found_points := []
    chessboard_dimensions := ⟨0, 0⟩
    cam := ⟨false⟩
    captured_frame := Image.blank
    cam_matrix := Mat.create 0 0 (fun _ _ => F64.zero)
    dist_coeffs := Mat.create 0 0 (fun _ _ => F64.zero)
    frame_compensated := Image.blank
    remap_map1 := Image.blank
    remap_map2 := Image.blank
    frame_size := ⟨0, 0⟩ }

/-- The constructor `Camera::Camera()`. -/
def new (raw : Camera) : Camera :=
  let c := uninitialised raw
  let c := set_chessboard_dimensions c 0 0
  let c := set_chessboard_square_dimension c F32.zero
  let c := set_video_source c (-1)
  let c := set_camera_calibration_results_file_name c "cam_calib_results.txt"
  let c := set_calibrated c false
  let c := set_number_of_images_to_calibrate c 0
  let c := set_default_camera_calibration_coefs c
  { c with calibration_in_progress := false, calibartion_image_number := 0,
           remap_first_entry := true }

/-! ## Device access -/

/-- The text `std::to_string(camera_id)`. -/
def to_string (n : Int) : String := toString n

/-- A structured fault, thrown. -/
def raise {α : Type} (msg : String) (id : ExceptionID) : Res α :=
  .thrown (.fault ⟨msg, id⟩)

/-- The member `Camera::open`. -/
def open_ (c : Camera) (w : World) : Out Bool :=
  let res := w.device_ok c.camera_id
  let c := { c with cam := ⟨res⟩ }
  if res = false then
    ⟨raise ("Cannot open camera with id: " ++ to_string c.camera_id) .camera_wrong_id, c, w⟩
  else
    ⟨.ok true, c, w⟩

/-- The statement `if (cam.isOpened() == false) open();`. -/
def ensure_open (c : Camera) (w : World) : Out Bool :=
  if c.cam.opened = false then open_ c w else ⟨.ok true, c, w⟩

/-- The member `Camera::read`; no result when the world has no further frame to give. -/
def read (c : Camera) (w : World) : Option (Out Bool) :=
  if c.camera_id = -1 then
    some ⟨raise ("Cannot read from camera with id: " ++ to_string c.camera_id)
      .camera_wrong_id, c, w⟩
  else
    let o := ensure_open c w
    match o.res with
    | .thrown t => some ⟨.thrown t, o.cam, o.world⟩
    | .ok _ =>
      match o.world.frames with
      | [] => none
      | f :: rest =>
        let frame := f.getD Image.blank
        let c := { o.cam with captured_frame := frame }
        let c := { c with frame_size := c.captured_frame.size }
        some ⟨.ok f.isSome, c, { o.world with frames := rest }⟩

/-! ## Persistence -/

/-- The conversion `static_cast<uint16_t>(n)`. -/
def to_uint16 (n : Nat) : Fin 65536 := ⟨n % 65536, Nat.mod_lt n (by decide)⟩

/-- The pairs `(r, c)` in the order in which the nested loops
`for (r = 0; r < rows; r++) for (c = 0; c < columns; c++)` visit them. -/
def loop_indices (rows columns : Nat) : List (Nat × Nat) :=
  ((List.range rows).map fun r => (List.range columns).map fun c => (r, c)).flatten

/-- The lines `save_camera_calibration` writes for one matrix: the row count, the column
count (both through `uint16_t`), then the entries the two loops visit, each followed by
`std::endl`. -/
def matrix_lines (E : Ext) (m : Mat) : Lines :=
  let rows := to_uint16 m.rows
  let columns := to_uint16 m.cols
  [E.putU16 rows, E.putU16 columns] ++
    (loop_indices rows.val columns.val).map fun rc => E.putDouble (m.atD rc.1 rc.2)

/-- Everything `save_camera_calibration` writes to the stream. -/
def calibration_lines (E : Ext) (c : Camera) : Lines :=
  matrix_lines E c.cam_matrix ++ matrix_lines E c.dist_coeffs

/-- The member `Camera::save_camera_calibration`. -/
def save_camera_calibration (E : Ext) (c : Camera) (w : World) : Out Bool :=
  if c.camera_calibration_file_name = " " then
    ⟨raise "File name cannot be \x27 \x27" .empty_calibration_file_name,
      { c with calibration_in_progress := false }, w⟩
  else if w.writable c.camera_calibration_file_name then
    ⟨.ok true, c, w.write c.camera_calibration_file_name (calibration_lines E c)⟩
  else
    ⟨.ok false, c, w⟩

/-- One formatted extraction `in_stream >> x`: it skips white space, line ends included,
and converts from the first character that is not white space; what the conversion does
not take stays ahead in the stream.  At the end of the file, or when the conversion
fails, it sets `failbit`. -/
def extract {α : Type} (get : List Char → Option (α × List Char)) :
    Lines → Option (α × Lines)
  | [] => none
  | line :: more =>
    match Iostream.skip_ws line with
    | [] => extract get more
    | ch :: s => (get (ch :: s)).map fun vr => (vr.1, vr.2 :: more)

/-- The nested reading loops of `load_camera_calibration_data` over one matrix: for each
entry visited, extract a double and store it.  The result is the matrix as the loops leave
it and the rest of the stream, or no stream when an extraction failed. -/
def read_entries (E : Ext) : List (Nat × Nat) → Mat → Lines → Mat × Option Lines
  | [], m, s => (m, some s)
  | rc :: rest, m, s =>
    match extract E.getDouble s with
    | none => (m, none)
    | some (v, s) => read_entries E rest (m.setD rc.1 rc.2 v) s

/-- The reading of one matrix in `load_camera_calibration_data`: extract `rows` and
`columns`, assign the freshly made matrix `fresh rows columns` to the member, fill it entry
by entry.  The result is the member as the reading leaves it (`old` when an exception came
before the assignment) and the rest of the stream, or no stream when an extraction failed. -/
def read_matrix (E : Ext) (fresh : Nat → Nat → Mat) (old : Mat) (s : Lines) :
    Mat × Option Lines :=
  match extract E.getU16 s with
  | none => (old, none)
  | some (rows, s) =>
    match extract E.getU16 s with
    | none => (old, none)
    | some (columns, s) =>
      read_entries E (loop_indices rows.val columns.val) (fresh rows.val columns.val) s

/-- The member `Camera::load_camera_calibration_data`.  The stream has `failbit` and
`badbit` in its exception mask: a failed `open` is caught and rethrown as a structured
fault, a failed extraction leaves the function as a stream failure.  The camera matrix is
made by `cv::Mat(cv::Size(columns, rows), CV_64F)`, the distortion coefficients by
`cv::Mat::zeros(rows, columns, CV_64F)`. -/
def load_camera_calibration_data (E : Ext) (c : Camera) (w : World) : Out Unit :=
  if c.camera_calibration_file_name = " " then
    ⟨raise "File name cannot be \x27 \x27" .empty_calibration_file_name,
      { c with calibration_in_progress := false }, w⟩
  else
    match w.files c.camera_calibration_file_name with
    | none =>
      ⟨raise ("Exception opening the file named: " ++ c.camera_calibration_file_name)
        .wrong_calibration_file_name, { c with calibration_in_progress := false }, w⟩
    | some s =>
      match read_matrix E (fun rows columns => Mat.create rows columns w.junk)
          c.cam_matrix s with
      | (m, none) => ⟨.thrown .stream_failure, { c with cam_matrix := m }, w⟩
      | (m, some s) =>
        let c := { c with cam_matrix := m }
        match read_matrix E Mat.zeros c.dist_coeffs s with
        | (m, none) => ⟨.thrown .stream_failure, { c with dist_coeffs := m }, w⟩
        | (m, some _) => ⟨.ok (), set_calibrated { c with dist_coeffs := m } true, w⟩

/-! ## Correction -/

/-- The member `Camera::compensate_distortions`. -/
def compensate_distortions (E : Ext) (c : Camera) (w : World) (ct : CorrectionType) :
    Out Unit :=
  if c.calibrated = false then
    ⟨raise "Cannot compensate image without calibration data" .no_calibration_data, c, w⟩
  else if c.captured_frame.empty = true then
    ⟨raise "Cannot compensate image without captured frame" .empty_frame, c, w⟩
  else
    match ct with
    | .remap =>
      let c :=
        if c.remap_first_entry then
          let maps := E.initUndistortRectifyMap c.cam_matrix c.dist_coeffs c.frame_size
          { c with remap_first_entry := false, remap_map1 := maps.1, remap_map2 := maps.2 }
        else c
      let dst := E.remap c.captured_frame c.remap_map1 c.remap_map2
      ⟨.ok (), { c with frame_compensated := dst }, w⟩
    | .undistort =>
      let dst := E.undistort c.captured_frame c.cam_matrix c.dist_coeffs c.frame_size
      ⟨.ok (), { c with frame_compensated := dst }, w⟩
    | .other _ =>
      ⟨.ok (), { c with frame_compensated := c.captured_frame }, w⟩

/-! ## Calibration -/

/-- The member `Camera::get_chessboard_corners` with `show_results == false`: the corners
of every image on which the fixed 6 x 9 pattern is found are appended. -/
def get_chessboard_corners (E : Ext) (images : List Image)
    (all_found_corners : List (List Point2f)) : List (List Point2f) :=
  images.foldl (fun acc img =>
    let r := E.findChessboardCorners img ⟨6, 9⟩
    if r.1 then acc ++ [r.2] else acc) all_found_corners

/-- The member `Camera::create_known_board_positions`. -/
def create_known_board_positions (E : Ext) (c : Camera) (corners : List Point3f) :
    Res (List Point3f) × Camera :=
  if c.chessboard_dimensions.width = 0 ∨ c.chessboard_dimensions.height = 0 then
    (raise "Cannot calibrate camera with chessboard 0 dimension" .wrong_chessboard_dimensions,
      { c with calibration_in_progress := false })
  else if c.chessboard_square_dimension.isZero then
    (raise "Cannot calibrate camera when chesboard square size equals 0"
      .wrong_chessboard_square_dimension, { c with calibration_in_progress := false })
  else
    (.ok (corners ++
      (loop_indices c.chessboard_dimensions.height c.chessboard_dimensions.width).map
        fun ij => (E.scale ij.2 c.chessboard_square_dimension,
                   E.scale ij.1 c.chessboard_square_dimension, F32.zero)), c)

/-- The member `Camera::calibration_backend`.  Every call is recorded in the world. -/
def calibration_backend (E : Ext) (c : Camera) (w : World) (calibration_images : List Image) :
    Out Unit :=
  let w := { w with backend_calls := w.backend_calls ++ [calibration_images] }
  if calibration_images.length = 0 then
    ⟨raise "Cannot calibrate camera with no calibration images" .no_calibration_images,
      { c with calibration_in_progress := false }, w⟩
  else
    let chessboard_image_space_points := get_chessboard_corners E calibration_images []
    if c.chessboard_dimensions.width = 0 ∨ c.chessboard_dimensions.height = 0 then
      ⟨raise "Cannot calibrate camera with chessboard 0 dimension"
        .wrong_chessboard_dimensions, { c with calibration_in_progress := false }, w⟩
    else
      match create_known_board_positions E c [] with
      | (.thrown t, c) => ⟨.thrown t, c, w⟩
      | (.ok corners, c) =>
        let world_space_corner_points :=
          List.replicate chessboard_image_space_points.length corners
        let c := { c with dist_coeffs := Mat.zeros 8 1 }
        match E.calibrateCamera world_space_corner_points chessboard_image_space_points
            c.chessboard_dimensions c.cam_matrix c.dist_coeffs with
        | none => ⟨.thrown .cv_exception, c, w⟩
        | some kd => ⟨.ok (), { c with cam_matrix := kd.1, dist_coeffs := kd.2 }, w⟩

/-- The conversion `static_cast<char>(cv::waitKey(10))`, as the code of the character. -/
def to_char (key : Int) : Int := key % 256

/-- The `switch (character)` of the calibration loop. -/
def handle_key (c : Camera) (saved_images : List Image) (character : Int) :
    Camera × List Image :=
  if character = 32 then
    if c.chessboard_found then
      ({ c with calibartion_image_number := (c.calibartion_image_number + 1) % 256 },
        saved_images ++ [c.captured_frame])
    else (c, saved_images)
  else if character = 27 then
    ({ c with calibration_in_progress := false }, saved_images)
  else (c, saved_images)

/-- The closing `if` of the loop body, taken when the counter has reached the target:
solve, persist, set the flags. -/
def finish_calibration (E : Ext) (c : Camera) (w : World) (saved_images : List Image) :
    Out Unit :=
  let o := calibration_backend E c w saved_images
  match o.res with
  | .thrown t => ⟨.thrown t, o.cam, o.world⟩
  | .ok _ =>
    let o := save_camera_calibration E o.cam o.world
    match o.res with
    | .thrown t => ⟨.thrown t, o.cam, o.world⟩
    | .ok _ =>
      ⟨.ok (), { o.cam with calibrated := true, calibration_in_progress := false }, o.world⟩

/-- How one pass through the body of the calibration loop ends: the function is left
(`done`), the loop condition is evaluated again (`again`), or the world has no key left to
give (`starved`). -/
inductive Step where
  | done (o : Out Unit)
  | again (c : Camera) (w : World) (saved_images : List Image)
  | starved

/-- The body of the loop `while (calibration_in_progress)` of `Camera::calibrate`; `f` is
what `cam.read(captured_frame)` gives in this pass. -/
def loop_body (E : Ext) (f : Option Image) (c : Camera) (w : World)
    (saved_images : List Image) : Step :=
  match f with
  | none =>
    .done ⟨raise ("Cannot read frame from camera with id: " ++ to_string c.camera_id)
      .camera_reading_failure,
      { c with captured_frame := Image.blank, calibration_in_progress := false }, w⟩
  | some frame =>
    let c := { c with captured_frame := frame }
    let r := E.findChessboardCorners c.captured_frame c.chessboard_dimensions
    let c := { c with chessboard_found := r.1, chessboard_found_points := r.2 }
    match w.keys with
    | [] => .starved
    | key :: keys =>
      let w := { w with keys := keys }
      let cs := handle_key c saved_images (to_char key)
      if cs.1.calibartion_image_number ≥ cs.1.number_of_images_to_calibrate then
        .done (finish_calibration E cs.1 w cs.2)
      else
        .again cs.1 w cs.2

/-- The loop `while (calibration_in_progress)` of `Camera::calibrate`, run over the frames
the device still has to give (the first argument, equal to `w.frames`).  No result when the
loop wants a frame or a key and the world has none left. -/
def calibrate_loop (E : Ext) :
    List (Option Image) → Camera → World → List Image → Option (Out Unit)
  | [], c, w, _ =>
    if c.calibration_in_progress then none else some ⟨.ok (), c, w⟩
  | f :: frames, c, w, saved_images =>
    if c.calibration_in_progress then
      match loop_body E f c { w with frames := frames } saved_images with
      | .done o => some o
      | .starved => none
      | .again c w saved_images => calibrate_loop E frames c w saved_images
    else some ⟨.ok (), c, w⟩

/-- The member `Camera::calibrate`. -/
def calibrate (E : Ext) (c : Camera) (w : World) : Option (Out Unit) :=
  let o := ensure_open c w
  match o.res with
  | .thrown t => some ⟨.thrown t, o.cam, o.world⟩
  | .ok _ =>
    let c := o.cam
    let w := o.world
    if c.camera_id = -1 then
      some ⟨raise ("Cannot calibrate camera with id: " ++ to_string c.camera_id)
        .camera_wrong_id, c, w⟩
    else if c.number_of_images_to_calibrate = 0 then
      some ⟨raise "Number of images to calibrate should be greater than 0"
        .no_calibration_images, c, w⟩
    else
      let c := { c with calibration_in_progress := true, calibrated := false,
                        calibartion_image_number := 0 }
      calibrate_loop E w.frames c w []

/-! ## What the calibration loop is meant to do -/

/-- The frames saved over a run of passes, from the reads and the keys of those passes:
the frames read on which the detector found the pattern while the key was the space. -/
def accepted (E : Ext) (dims : Size) : List (Option Image) → List Int → List Image
  | some f :: fs, k :: ks =>
    (if (E.findChessboardCorners f dims).1 = true ∧ to_char k = 32 then [f] else []) ++
      accepted E dims fs ks
  | _, _ => []

/-- The controller as `calibrate` has it on entering its loop: the device open, the
in-progress flag set, the calibrated flag and the counter cleared. -/
def loop_entry (c : Camera) : Camera :=
  { c with cam := ⟨true⟩, calibration_in_progress := true, calibrated := false,
           calibartion_image_number := 0 }

/-- The controller `c2` differs from `c` at most in the members the loop body assigns. -/
def loop_touched (c c2 : Camera) : Prop :=
  ∃ frame found points count progress,
    c2 = { c with captured_frame := frame, chessboard_found := found,
                  chessboard_found_points := points, calibartion_image_number := count,
                  calibration_in_progress := progress }

/-- The world `w2` differs from `w` at most in the frames and keys still to come. -/
def input_consumed (w w2 : World) : Prop :=
  ∃ frames keys, w2 = { w with frames := frames, keys := keys }

/-! ## The contract of the stream library -/

/-- The values of `n` extractions of a double in a row, and the stream left; nothing when
one of them fails. -/
def extract_doubles (E : Ext) : Nat → Lines → Option (List F64 × Lines)
  | 0, s => some ([], s)
  | n + 1, s =>
    match extract E.getDouble s with
    | none => none
    | some (v, s) => (extract_doubles E n s).map fun r => (v :: r.1, r.2)

/-- The matrix has fewer than 65536 rows and fewer than 65536 columns: its dimensions
pass through `uint16_t` unchanged. -/
def fits_uint16 (m : Mat) : Prop := m.rows < 65536 ∧ m.cols < 65536

/-- The solver returns matrices with fewer than 65536 rows and columns (`calibrateCamera`
returns a 3 x 3 camera matrix and at most 14 distortion coefficients). -/
def solver_fits (E : Ext) : Prop :=
  ∀ obj img size k d kd, E.calibrateCamera obj img size k d = some kd →
    fits_uint16 kd.1 ∧ fits_uint16 kd.2

/-! ## Operations and the states they reach -/

/-- The member `Camera::show_frame_raw`: it shows the frame and changes nothing. -/
def show_frame_raw (c : Camera) (w : World) : Out Unit :=
  if c.captured_frame.empty = true then
    ⟨raise "Cannot show empty frame" .empty_frame, c, w⟩
  else ⟨.ok (), c, w⟩

/-- The member `Camera::show_frame_compensated`: it shows the frame and changes nothing. -/
def show_frame_compensated (c : Camera) (w : World) : Out Unit :=
  if c.frame_compensated.empty = true then
    ⟨raise "Cannot show empty frame" .empty_frame, c, w⟩
  else ⟨.ok (), c, w⟩

/-- A call of a public member function that can change the controller, with its
arguments. -/
inductive Op where
  | set_chessboard_square_dimension (arg_dim : F32)
  | set_chessboard_width (arg_width : Nat)
  | set_chessboard_height (arg_height : Nat)
  | set_chessboard_dimensions (arg_height arg_width : Nat)
  | set_video_source (arg_camera_id : Int)
  | set_camera_calibration_results_file_name (arg_file_name : String)
  | set_calibrated (arg_calibrated : Bool)
  | set_number_of_images_to_calibrate (arg_num : Nat)
  | set_default_camera_calibration_coefs
  | calibrate
  | compensate_distortions (ct : CorrectionType)
  | load_camera_calibration_data
  | show_frame_raw
  | show_frame_compensated
  | open_
  | read

/-- An outcome with the returned value forgotten. -/
def forget_value {α : Type} (o : Out α) : Out Unit :=
  ⟨match o.res with
    | .ok _ => .ok ()
    | .thrown t => .thrown t, o.cam, o.world⟩

/-- The call `op` made on the controller `c` in the world `w`. -/
def Op.run (E : Ext) (op : Op) (c : Camera) (w : World) : Option (Out Unit) :=
  match op with
  | .set_chessboard_square_dimension d =>
    some ⟨.ok (), Camera.set_chessboard_square_dimension c d, w⟩
  | .set_chessboard_width n => some ⟨.ok (), Camera.set_chessboard_width c n, w⟩
  | .set_chessboard_height n => some ⟨.ok (), Camera.set_chessboard_height c n, w⟩
  | .set_chessboard_dimensions h n => some ⟨.ok (), Camera.set_chessboard_dimensions c h n, w⟩
  | .set_video_source id => some ⟨.ok (), Camera.set_video_source c id, w⟩
  | .set_camera_calibration_results_file_name s =>
    some ⟨.ok (), Camera.set_camera_calibration_results_file_name c s, w⟩
  | .set_calibrated b => some ⟨.ok (), Camera.set_calibrated c b, w⟩
  | .set_number_of_images_to_calibrate n =>
    some ⟨.ok (), Camera.set_number_of_images_to_calibrate c n, w⟩
  | .set_default_camera_calibration_coefs =>
    some ⟨.ok (), Camera.set_default_camera_calibration_coefs c, w⟩
  | .calibrate => Camera.calibrate E c w
  | .compensate_distortions ct => some (Camera.compensate_distortions E c w ct)
  | .load_camera_calibration_data => some (Camera.load_camera_calibration_data E c w)
  | .show_frame_raw => some (Camera.show_frame_raw c w)
  | .show_frame_compensated => some (Camera.show_frame_compensated c w)
  | .open_ => some (forget_value (Camera.open_ c w))
  | .read => (Camera.read c w).map forget_value

/-- The controllers left by a sequence of calls on a freshly constructed controller, each
call in whatever world it finds, none of them ended by an exception of the vision
library. -/
inductive Reachable (E : Ext) : Camera → Prop where
  | fresh (raw : Camera) : Reachable E (Camera.new raw)
  | call (c : Camera) (op : Op) (w : World) (o : Out Unit) :
      Reachable E c → op.run E c w = some o → o.res ≠ .thrown .cv_exception →
      Reachable E o.cam

/-- The controller after each statement of the closing `if` of the loop body that gets
executed: after `calibration_backend(saved_images)`, after `save_camera_calibration()`,
after `calibrated = true`, after `calibration_in_progress = false`. -/
def finish_calibration_states (E : Ext) (c : Camera) (w : World)
    (saved_images : List Image) : List Camera :=
  let o := calibration_backend E c w saved_images
  match o.res with
  | .thrown _ => [o.cam]
  | .ok _ =>
    let o2 := save_camera_calibration E o.cam o.world
    match o2.res with
    | .thrown _ => [o.cam, o2.cam]
    | .ok _ =>
      [o.cam, o2.cam, { o2.cam with calibrated := true },
        { o2.cam with calibrated := true, calibration_in_progress := false }]

end Camera

/-! ## Concrete collaborators and inputs

Enough to run every member function on explicit inputs. -/

namespace Demo

/-- The camera matrix the concrete solver returns: focal lengths 1234.5678, principal
point (640, 360); 4653144502051863213 is the bit pattern of 1234.5678, 4648840715353194496
that of 640, 4645040803167600640 that of 360. -/
def solved_matrix : Mat where
  rows := 3
  cols := 3
  data := fun i j =>
    if i = j then (if i = 2 then F64.one else ⟨4653144502051863213⟩)
    else if j = 2 then (if i = 0 then ⟨4648840715353194496⟩ else ⟨4645040803167600640⟩)
    else F64.zero

/-- The concrete collaborators: a detector that finds a pattern of a size that is not
zero on the frames whose first pixel is 1, a solver that fails on an empty set of views,
and the standard stream library. -/
def ext : Ext where
  findChessboardCorners := fun img dims =>
    (decide (dims.width ≠ 0 ∧ dims.height ≠ 0) && (img.pixels.head? == some 1), [])
  scale := fun n x => ⟨n * x.bits⟩
  calibrateCamera := fun _ pts _ _ _ =>
    if pts.length = 0 then none else some (solved_matrix, Mat.zeros 5 1)
  initUndistortRectifyMap := fun _ _ _ => (Image.blank, Image.blank)
  remap := fun src _ _ => src
  undistort := fun src _ _ _ => src
  putU16 := Iostream.put_uint16
  putDouble := Iostream.put_double
  getU16 := Iostream.get_uint16
  getDouble := Iostream.get_double

/-- A block of storage with every scalar zero. -/
def raw : Camera where
  chessboard_found := false
  calibration_in_progress := false
  calibrated := false
  remap_first_entry := false
  camera_id := 0
  chessboard_square_dimension := ⟨0⟩
  chessboard_width := 0
  chessboard_height := 0
  number_of_images_to_calibrate := 0
  calibartion_image_number := 0
  camera_calibration_file_name := ""
  chessboard_found_points := []
  chessboard_dimensions := ⟨0, 0⟩
  cam := ⟨false⟩
  captured_frame := Image.blank
  cam_matrix := Mat.zeros 0 0
  dist_coeffs := Mat.zeros 0 0
  frame_compensated := Image.blank
  remap_map1 := Image.blank
  remap_map2 := Image.blank
  frame_size := ⟨0, 0⟩

/-- A freshly constructed controller. -/
def fresh : Camera := Camera.new raw

/-- A frame on which the concrete detector finds the pattern. -/
def board : Image := ⟨1, 2, [1, 0]⟩

/-- A frame on which the concrete detector finds nothing. -/
def wall : Image := ⟨1, 2, [0, 0]⟩

/-- A world whose file system holds `/dev/null` only: every device opens, `frames` and
`keys` are what the device and the keyboard will give, and every name but
`no_such_dir/cam_calib.txt` can be opened for writing. -/
def world (frames : List (Option Image)) (keys : List Int) : World where
  device_ok := fun _ => true
  frames := frames
  keys := keys
  files := fun name => if name = "/dev/null" then some [] else none
  writable := fun name => decide (name ≠ "no_such_dir/cam_calib.txt")
  stores := fun name => decide (name ≠ "/dev/null")
  junk := fun _ _ => ⟨7⟩
  backend_calls := []

/-- That world with one readable file added, holding the given lines. -/
def world_with_file (name : String) (toks : List String) : World :=
  { world [] [] with
    files := fun f => if f = name then some (toks.map String.data) else (world [] []).files f }

/-- A controller set up as `main.cpp` sets it up for a calibration run, with a target of
`n` images; 1021021100 is the bit pattern of `0.0268f`. -/
def configured (n : Nat) : Camera :=
  let c := Camera.set_video_source fresh 0
  let c := Camera.set_camera_calibration_results_file_name c "cam_calib.txt"
  let c := Camera.set_chessboard_dimensions c 6 9
  let c := Camera.set_chessboard_square_dimension c ⟨1021021100⟩
  Camera.set_number_of_images_to_calibrate c n

/-- A controller with its id set and a target of one image, but the pattern geometry
left at its initial 0 x 0. -/
def zero_geometry : Camera :=
  Camera.set_number_of_images_to_calibrate (Camera.set_video_source fresh 0) 1

/-- A configured controller whose results file is in a directory that does not exist. -/
def unwritable : Camera :=
  Camera.set_camera_calibration_results_file_name (configured 1) "no_such_dir/cam_calib.txt"

/-- The controller of a run of `configured 1` when its first pass, on `board` with the
space key, reaches the closing `if`. -/
def at_target : Camera :=
  { Camera.loop_entry (configured 1) with
    captured_frame := board, chessboard_found := true, calibartion_image_number := 1 }

/-- The concrete collaborators, with a solver that throws. -/
def ext_throwing : Ext := { ext with calibrateCamera := fun _ _ _ _ _ => none }

end Demo

end camera_ns

namespace camera_ns

open Iostream

/-! ## The stream library reads back what it wrote -/

theorem digits_value_eq (acc : Nat) (ds : List Char) :
    digits_value ds acc = acc * 10 ^ ds.length + digits_value ds 0 := by
  induction ds generalizing acc with
  | nil => simp [digits_value]
  | cons ch ds ih =>
    simp only [digits_value, List.length_cons]
    rw [ih (acc * 10 + (ch.toNat - 48)), ih (0 * 10 + (ch.toNat - 48))]
    ring

end camera_ns
namespace camera_ns

open Iostream

end camera_ns
namespace camera_ns

open Iostream

end camera_ns
namespace camera_ns

open Iostream

end camera_ns
namespace camera_ns

open Iostream

end camera_ns

namespace camera_ns

open Iostream

end camera_ns
namespace camera_ns

open Iostream

end camera_ns
namespace camera_ns

open Iostream

end camera_ns
namespace camera_ns

open Iostream

end camera_ns
namespace camera_ns

open Iostream

end camera_ns
/-! ## The order of the nested loops -/

namespace camera_ns

open Camera

theorem loop_indices_eq_product (rows cols : Nat) :
    loop_indices rows cols = SProd.sprod (List.range rows) (List.range cols) := by
  rfl

theorem loop_indices_succ (n cols : Nat) :
    loop_indices (n + 1) cols =
      loop_indices n cols ++ (List.range cols).map fun c => (n, c) := by
  simp [loop_indices, List.range_succ]

theorem loop_indices_length (rows cols : Nat) :
    (loop_indices rows cols).length = rows * cols := by
  rw [loop_indices_eq_product, List.length_product]; simp

theorem loop_indices_nodup (rows cols : Nat) : (loop_indices rows cols).Nodup := by
  rw [loop_indices_eq_product]
  exact List.Nodup.product (List.nodup_range _) (List.nodup_range _)

/-- The pass with `r` and `c` is pass number `r * cols + c` of the nested loops. -/
theorem loop_indices_getElem? (rows cols r c : Nat) (hr : r < rows) (hc : c < cols) :
    (loop_indices rows cols)[r * cols + c]? = some (r, c) := by
  induction rows with
  | zero => omega
  | succ n ih =>
    rw [loop_indices_succ]
    by_cases h : r < n
    · have hlt : r * cols + c < (loop_indices n cols).length := by
        rw [loop_indices_length]
        calc r * cols + c < r * cols + cols := by omega
          _ = (r + 1) * cols := by ring
          _ ≤ n * cols := Nat.mul_le_mul_right _ h
      rw [List.getElem?_append_left hlt]
      exact ih h
    · have hrn : r = n := by omega
      subst hrn
      rw [List.getElem?_append_right (by rw [loop_indices_length]; omega)]
      simp [loop_indices_length, hc]

/-! ## Reading back what was written -/

/-- A reading of entries that succeeds made one extraction per entry visited, one after
the other from where the stream stood, and left in each entry the value of its own
extraction. -/
theorem read_entries_ok (E : Ext) (L : List (Nat × Nat)) (m m2 : Mat) (s rest : Lines)
    (h : read_entries E L m s = (m2, some rest)) (hnd : L.Nodup) :
    ∃ vals, extract_doubles E L.length s = some (vals, rest) ∧
      m2.rows = m.rows ∧ m2.cols = m.cols ∧
      (∀ r c, (r, c) ∉ L → m2.atD r c = m.atD r c) ∧
      ∀ (i : Nat) (rc : Nat × Nat), L[i]? = some rc → vals[i]? = some (m2.atD rc.1 rc.2) := by
  induction L generalizing m s with
  | nil =>
    simp only [read_entries, Prod.mk.injEq, Option.some.injEq] at h
    obtain ⟨h1, h2⟩ := h
    subst h1 h2
    exact ⟨[], rfl, rfl, rfl, fun _ _ _ => rfl, by simp⟩
  | cons rc L ih =>
    cases hv : extract E.getDouble s with
    | none => simp [read_entries, hv] at h
    | some vs =>
      obtain ⟨v, s1⟩ := vs
      simp only [read_entries, hv] at h
      have hnd2 := List.nodup_cons.mp hnd
      obtain ⟨vals, hb, hr, hc, hout, hin⟩ := ih (m.setD rc.1 rc.2 v) s1 h hnd2.2
      refine ⟨v :: vals, by simp [extract_doubles, hv, hb], hr, hc, ?_, ?_⟩
      · intro r c hnot
        have hne : (r, c) ≠ rc ∧ (r, c) ∉ L := by simpa using hnot
        rw [hout r c hne.2]
        simp only [Mat.setD, Mat.atD]
        rw [if_neg]
        intro h12
        exact hne.1 (Prod.ext h12.1 h12.2)
      · intro i x hx
        cases i with
        | zero =>
          simp only [List.getElem?_cons_zero, Option.some.injEq] at hx
          subst hx
          rw [hout rc.1 rc.2 hnd2.1]
          simp [Mat.setD, Mat.atD]
        | succ i =>
          simp only [List.getElem?_cons_succ] at hx
          simpa using hin i x hx

end camera_ns

/-! ## The file written and the file read -/

namespace camera_ns

open Camera

theorem matrix_lines_length (E : Ext) (m : Mat) :
    (matrix_lines E m).length = 2 + (m.rows % 65536) * (m.cols % 65536) := by
  simp [matrix_lines, loop_indices_length, to_uint16]
  omega

theorem matrix_lines_rows (E : Ext) (m : Mat) :
    (matrix_lines E m)[0]? = some (E.putU16 (to_uint16 m.rows)) := by
  simp [matrix_lines]

theorem matrix_lines_cols (E : Ext) (m : Mat) :
    (matrix_lines E m)[1]? = some (E.putU16 (to_uint16 m.cols)) := by
  simp [matrix_lines]

theorem matrix_lines_entry (E : Ext) (m : Mat) (r c : Nat)
    (hr : r < m.rows % 65536) (hc : c < m.cols % 65536) :
    (matrix_lines E m)[2 + r * (m.cols % 65536) + c]? = some (E.putDouble (m.atD r c)) := by
  have hidx : 2 + r * (m.cols % 65536) + c = (r * (m.cols % 65536) + c) + 1 + 1 := by omega
  rw [hidx]
  simp only [matrix_lines, to_uint16, List.cons_append, List.nil_append,
    List.getElem?_cons_succ, List.getElem?_map]
  rw [loop_indices_getElem? _ _ r c hr hc]
  rfl

/-- A reading of a matrix that succeeds extracted the row count, then the column count,
then one double per entry, and holds in entry `(r, c)` the double of extraction number
`r * cols + c`. -/
theorem read_matrix_ok (E : Ext) (fresh : Nat → Nat → Mat) (old m2 : Mat) (s rest : Lines)
    (hf : ∀ r k, (fresh r k).rows = r ∧ (fresh r k).cols = k)
    (h : read_matrix E fresh old s = (m2, some rest)) :
    ∃ (rows cols : Fin 65536) (s1 s2 : Lines) (vals : List F64),
      extract E.getU16 s = some (rows, s1) ∧ extract E.getU16 s1 = some (cols, s2) ∧
      extract_doubles E (rows.val * cols.val) s2 = some (vals, rest) ∧
      m2.rows = rows.val ∧ m2.cols = cols.val ∧
      ∀ r c, r < rows.val → c < cols.val →
        vals[r * cols.val + c]? = some (m2.atD r c) := by
  cases h0 : extract E.getU16 s with
  | none => simp [read_matrix, h0] at h
  | some rs =>
    obtain ⟨rows, s1⟩ := rs
    cases h1 : extract E.getU16 s1 with
    | none => simp [read_matrix, h0, h1] at h
    | some cs =>
      obtain ⟨cols, s2⟩ := cs
      simp only [read_matrix, h0, h1] at h
      obtain ⟨vals, hb, hr, hc, _, hin⟩ :=
        read_entries_ok E _ _ _ _ _ h (loop_indices_nodup _ _)
      rw [loop_indices_length] at hb
      refine ⟨rows, cols, s1, s2, vals, rfl, h1, hb, by rw [hr, (hf _ _).1],
        by rw [hc, (hf _ _).2], ?_⟩
      intro r c hr2 hc2
      exact hin _ _ (loop_indices_getElem? _ _ r c hr2 hc2)

end camera_ns

/-! ## Saving, then loading -/

namespace camera_ns

open Camera

end camera_ns

namespace camera_ns

open Camera

end camera_ns

namespace camera_ns

open Camera

/-- An infinity and a NaN are written as `inf` and `nan`, and the extraction of a double
does not take those: an entry that is not finite makes the loading end with a stream
failure.  9218868437227405312 is the bit pattern of the positive infinity,
9221120237041090560 that of a NaN. -/
theorem infinity_written_is_not_read_back :
    Iostream.put_double ⟨9218868437227405312⟩ = "inf".data ∧
    Iostream.get_double "inf".data = none ∧
    Iostream.put_double ⟨9221120237041090560⟩ = "nan".data ∧
    Iostream.get_double "nan".data = none :=
  ⟨rfl, rfl, rfl, rfl⟩

end camera_ns

namespace camera_ns

open Camera

end camera_ns

namespace camera_ns

open Camera

end camera_ns

/-! ## The layout of the file -/

namespace camera_ns

open Camera

/-- The matrices `save_camera_calibration` is called on are the two the solver returned:
`calibrate` calls it right after a `calibration_backend` that returned normally, and
nothing else calls it. -/
theorem calibration_backend_leaves_solver_output (E : Ext) (c : Camera) (w : World)
    (images : List Image) (h : (calibration_backend E c w images).res = Res.ok ()) :
    ∃ obj img size k d kd, E.calibrateCamera obj img size k d = some kd ∧
      (calibration_backend E c w images).cam.cam_matrix = kd.1 ∧
      (calibration_backend E c w images).cam.dist_coeffs = kd.2 := by
  by_cases hs : images.length = 0
  · simp [calibration_backend, hs, raise] at h
  · by_cases hz : c.chessboard_dimensions.width = 0 ∨ c.chessboard_dimensions.height = 0
    · simp [calibration_backend, hs, hz, raise] at h
    · cases hsq : c.chessboard_square_dimension.isZero
      · simp only [calibration_backend, create_known_board_positions, hs, hz, hsq, if_false,
          Bool.false_eq_true] at h ⊢
        split at h
        · simp at h
        · rename_i kd hkd
          simp only [hkd]
          exact ⟨_, _, _, _, _, kd, hkd, rfl, rfl⟩
      · simp [calibration_backend, create_known_board_positions, hs, hz, hsq, raise] at h

/-- With a solver that returns matrices of fewer than 65536 rows and columns, the
matrices `save_camera_calibration` is called on have fewer than 65536 rows and columns. -/
theorem calibration_backend_fits (E : Ext) (hE : solver_fits E) (c : Camera) (w : World)
    (images : List Image) (h : (calibration_backend E c w images).res = Res.ok ()) :
    fits_uint16 (calibration_backend E c w images).cam.cam_matrix ∧
    fits_uint16 (calibration_backend E c w images).cam.dist_coeffs := by
  obtain ⟨obj, img, size, k, d, kd, hkd, h1, h2⟩ :=
    calibration_backend_leaves_solver_output E c w images h
  rw [h1, h2]
  exact hE obj img size k d kd hkd

/-- The matrices of a freshly constructed controller, and the matrices
`load_camera_calibration_data` makes, have fewer than 65536 rows and columns. -/
theorem constructed_and_loaded_fit (E : Ext) (raw c : Camera) (w : World)
    (h : (load_camera_calibration_data E c w).res = Res.ok ()) :
    fits_uint16 (Camera.new raw).cam_matrix ∧ fits_uint16 (Camera.new raw).dist_coeffs ∧
    fits_uint16 (load_camera_calibration_data E c w).cam.cam_matrix ∧
    fits_uint16 (load_camera_calibration_data E c w).cam.dist_coeffs := by
  have h3 : (3 : Nat) < 65536 := by decide
  refine ⟨⟨h3, h3⟩, ⟨h3, h3⟩, ?_⟩
  unfold load_camera_calibration_data at h ⊢
  by_cases hname : c.camera_calibration_file_name = " "
  · simp [hname, raise] at h
  · simp only [hname, if_false] at h ⊢
    cases hfile : w.files c.camera_calibration_file_name with
    | none => simp [hfile, raise] at h
    | some s =>
      simp only [hfile] at h ⊢
      rcases h1 : read_matrix E (fun rows columns => Mat.create rows columns w.junk)
          c.cam_matrix s with ⟨m1, _ | s1⟩
      · simp [h1] at h
      · rcases h2 : read_matrix E Mat.zeros c.dist_coeffs s1 with ⟨m2, _ | s2⟩
        · simp [h1, h2] at h
        · simp only [h1, h2]
          obtain ⟨rows, cols, _, _, _, _, _, _, a3, a4, _⟩ :=
            read_matrix_ok E _ _ _ _ _ (fun _ _ => ⟨rfl, rfl⟩) h1
          obtain ⟨rows2, cols2, _, _, _, _, _, _, b3, b4, _⟩ :=
            read_matrix_ok E _ _ _ _ _ (fun _ _ => ⟨rfl, rfl⟩) h2
          refine ⟨⟨?_, ?_⟩, ⟨?_, ?_⟩⟩
          · show m1.rows < 65536
            rw [a3]; exact rows.isLt
          · show m1.cols < 65536
            rw [a4]; exact cols.isLt
          · show m2.rows < 65536
            rw [b3]; exact rows2.isLt
          · show m2.cols < 65536
            rw [b4]; exact cols2.isLt

/-- C9: for a file name other than the lone space that can be opened for writing, and an
r1 x c1 camera matrix and an r2 x c2 distortion-coefficient matrix (dimensions a member
matrix can have: below 65536, as those of the constructor, of the solver and of a loaded
file are), `save_camera_calibration` returns true and writes exactly
4 + r1 * c1 + r2 * c2 lines, which the file then holds: r1, c1, the entries of the camera
matrix with entry (r, c) on line 2 + r * c1 + c, then r2, c2 and the entries of the
distortion coefficients in the same way.  And whenever `load_camera_calibration_data`
returns normally, it has made its extractions one after the other in that same order,
the row count, the column count, then rows * cols doubles, for the camera matrix and then
for the distortion coefficients, and entry (r, c) of each matrix holds the double of
extraction number r * cols + c after the two counts (token 2 + r * cols + c of its
block). -/
theorem calibration_file_layout (E : Ext) (c : Camera) (w : World)
    (hname : c.camera_calibration_file_name ≠ " ") :
    (w.writable c.camera_calibration_file_name = true →
      fits_uint16 c.cam_matrix → fits_uint16 c.dist_coeffs →
      (save_camera_calibration E c w).res = Res.ok true ∧
      (save_camera_calibration E c w).world =
        w.write c.camera_calibration_file_name (calibration_lines E c) ∧
      (w.stores c.camera_calibration_file_name = true →
        (save_camera_calibration E c w).world.files c.camera_calibration_file_name =
          some (calibration_lines E c)) ∧
      (calibration_lines E c).length =
        4 + c.cam_matrix.rows * c.cam_matrix.cols + c.dist_coeffs.rows * c.dist_coeffs.cols ∧
      (calibration_lines E c)[0]? = some (E.putU16 (to_uint16 c.cam_matrix.rows)) ∧
      (calibration_lines E c)[1]? = some (E.putU16 (to_uint16 c.cam_matrix.cols)) ∧
      (∀ r j, r < c.cam_matrix.rows → j < c.cam_matrix.cols →
        (calibration_lines E c)[2 + r * c.cam_matrix.cols + j]? =
          some (E.putDouble (c.cam_matrix.atD r j))) ∧
      (calibration_lines E c)[2 + c.cam_matrix.rows * c.cam_matrix.cols]? =
        some (E.putU16 (to_uint16 c.dist_coeffs.rows)) ∧
      (calibration_lines E c)[2 + c.cam_matrix.rows * c.cam_matrix.cols + 1]? =
        some (E.putU16 (to_uint16 c.dist_coeffs.cols)) ∧
      (∀ r j, r < c.dist_coeffs.rows → j < c.dist_coeffs.cols →
        (calibration_lines E c)[2 + c.cam_matrix.rows * c.cam_matrix.cols +
            (2 + r * c.dist_coeffs.cols + j)]? =
          some (E.putDouble (c.dist_coeffs.atD r j)))) ∧
    (∀ s, w.files c.camera_calibration_file_name = some s →
      (load_camera_calibration_data E c w).res = Res.ok () →
      ∃ (rows cols rows2 cols2 : Fin 65536) (s1 s2 s3 s4 s5 s6 : Lines)
          (vals vals2 : List F64),
        extract E.getU16 s = some (rows, s1) ∧ extract E.getU16 s1 = some (cols, s2) ∧
        extract_doubles E (rows.val * cols.val) s2 = some (vals, s3) ∧
        extract E.getU16 s3 = some (rows2, s4) ∧ extract E.getU16 s4 = some (cols2, s5) ∧
        extract_doubles E (rows2.val * cols2.val) s5 = some (vals2, s6) ∧
        (load_camera_calibration_data E c w).cam.cam_matrix.rows = rows.val ∧
        (load_camera_calibration_data E c w).cam.cam_matrix.cols = cols.val ∧
        (∀ r j, r < rows.val → j < cols.val →
          vals[r * cols.val + j]? =
            some ((load_camera_calibration_data E c w).cam.cam_matrix.atD r j)) ∧
        (load_camera_calibration_data E c w).cam.dist_coeffs.rows = rows2.val ∧
        (load_camera_calibration_data E c w).cam.dist_coeffs.cols = cols2.val ∧
        (∀ r j, r < rows2.val → j < cols2.val →
          vals2[r * cols2.val + j]? =
            some ((load_camera_calibration_data E c w).cam.dist_coeffs.atD r j))) := by
  constructor
  · intro hw hkf hdf
    have hk1 := Nat.mod_eq_of_lt hkf.1
    have hk2 := Nat.mod_eq_of_lt hkf.2
    have hd1 := Nat.mod_eq_of_lt hdf.1
    have hd2 := Nat.mod_eq_of_lt hdf.2
    have hlen := matrix_lines_length E c.cam_matrix
    rw [hk1, hk2] at hlen
    have hlen2 := matrix_lines_length E c.dist_coeffs
    rw [hd1, hd2] at hlen2
    have hsecond : ∀ i, (calibration_lines E c)[2 + c.cam_matrix.rows * c.cam_matrix.cols + i]? =
        (matrix_lines E c.dist_coeffs)[i]? := by
      intro i
      unfold calibration_lines
      rw [List.getElem?_append_right (by omega)]
      congr 1
      omega
    have hfirst : ∀ i, i < 2 + c.cam_matrix.rows * c.cam_matrix.cols →
        (calibration_lines E c)[i]? = (matrix_lines E c.cam_matrix)[i]? := by
      intro i hi
      unfold calibration_lines
      rw [List.getElem?_append_left (by omega)]
    have hbound : ∀ r j, r < c.cam_matrix.rows → j < c.cam_matrix.cols →
        2 + r * c.cam_matrix.cols + j < 2 + c.cam_matrix.rows * c.cam_matrix.cols := by
      intro r j hr hj
      have : (r + 1) * c.cam_matrix.cols ≤ c.cam_matrix.rows * c.cam_matrix.cols :=
        Nat.mul_le_mul_right _ hr
      have h2 : (r + 1) * c.cam_matrix.cols = r * c.cam_matrix.cols + c.cam_matrix.cols := by
        ring
      omega
    have hs : save_camera_calibration E c w = ⟨Res.ok true, c,
        w.write c.camera_calibration_file_name (calibration_lines E c)⟩ := by
      simp [save_camera_calibration, hname, hw]
    refine ⟨by rw [hs], by rw [hs], fun hst => by simp [hs, World.write, hst],
      by simp only [calibration_lines, List.length_append, hlen, hlen2]; omega,
      ?_, ?_, ?_, ?_, ?_, ?_⟩
    · rw [hfirst 0 (by omega)]; exact matrix_lines_rows E _
    · rw [hfirst 1 (by omega)]; exact matrix_lines_cols E _
    · intro r j hr hj
      rw [hfirst _ (hbound r j hr hj)]
      have := matrix_lines_entry E c.cam_matrix r j (by rw [hk1]; exact hr)
        (by rw [hk2]; exact hj)
      rw [hk2] at this
      exact this
    · have := hsecond 0
      rw [Nat.add_zero] at this
      rw [this]; exact matrix_lines_rows E _
    · rw [hsecond 1]; exact matrix_lines_cols E _
    · intro r j hr hj
      rw [hsecond]
      have := matrix_lines_entry E c.dist_coeffs r j (by rw [hd1]; exact hr)
        (by rw [hd2]; exact hj)
      rw [hd2] at this
      exact this
  · intro s hfile hok
    unfold load_camera_calibration_data at hok ⊢
    simp only [hname, if_false, hfile] at hok ⊢
    rcases h1 : read_matrix E (fun rows columns => Mat.create rows columns w.junk)
        c.cam_matrix s with ⟨m1, _ | t1⟩
    · simp [h1] at hok
    · rcases h2 : read_matrix E Mat.zeros c.dist_coeffs t1 with ⟨m2, _ | t2⟩
      · simp [h1, h2] at hok
      · simp only [h1, h2]
        obtain ⟨rows, cols, s1, s2, vals, a1, a2, a3, a4, a5, a6⟩ :=
          read_matrix_ok E _ _ _ _ _ (fun _ _ => ⟨rfl, rfl⟩) h1
        obtain ⟨rows2, cols2, s4, s5, vals2, b1, b2, b3, b4, b5, b6⟩ :=
          read_matrix_ok E _ _ _ _ _ (fun _ _ => ⟨rfl, rfl⟩) h2
        exact ⟨rows, cols, rows2, cols2, s1, s2, t1, s4, s5, t2, vals, vals2,
          a1, a2, a3, b1, b2, b3, a4, a5, a6, b4, b5, b6⟩

end camera_ns

namespace camera_ns

open Camera

/-- The fresh controller writes 22 lines, the middle entry of the identity on line
2 + 1 * 3 + 1; and from a file with the single line `1 2 1.5.5 1 1 0` a 1 x 2 camera
matrix is loaded with the entries 1.5 and 0.5: entry (0, 1) is the double of extraction
number 0 * 2 + 1 after the two counts, the `.5` the extraction before it left. -/
theorem calibration_file_layout_witness :
    ((save_camera_calibration Demo.ext Demo.fresh (Demo.world [] [])).res = Res.ok true ∧
      (calibration_lines Demo.ext Demo.fresh).length = 4 + 3 * 3 + 3 * 3 ∧
      (calibration_lines Demo.ext Demo.fresh)[2 + 1 * 3 + 1]? =
        some (Demo.ext.putDouble F64.one)) ∧
    (load_camera_calibration_data Demo.ext Demo.fresh
      (Demo.world_with_file "cam_calib_results.txt" ["1 2 1.5.5 1 1 0"])).res = Res.ok () ∧
    (load_camera_calibration_data Demo.ext Demo.fresh
      (Demo.world_with_file "cam_calib_results.txt"
        ["1 2 1.5.5 1 1 0"])).cam.cam_matrix.atD 0 0 = ⟨4609434218613702656⟩ ∧
    (load_camera_calibration_data Demo.ext Demo.fresh
      (Demo.world_with_file "cam_calib_results.txt"
        ["1 2 1.5.5 1 1 0"])).cam.cam_matrix.atD 0 1 = ⟨4602678819172646912⟩ ∧
    ∃ (rows cols : Fin 65536) (s1 s2 s3 : Lines) (vals : List F64),
      extract Demo.ext.getU16 ["1 2 1.5.5 1 1 0".data] = some (rows, s1) ∧
      extract Demo.ext.getU16 s1 = some (cols, s2) ∧
      extract_doubles Demo.ext (rows.val * cols.val) s2 = some (vals, s3) ∧
      vals[0 * cols.val + 1]? =
        some ((load_camera_calibration_data Demo.ext Demo.fresh
          (Demo.world_with_file "cam_calib_results.txt"
            ["1 2 1.5.5 1 1 0"])).cam.cam_matrix.atD 0 1) :=
  have h := (calibration_file_layout Demo.ext Demo.fresh (Demo.world [] []) (by decide)).1
    rfl ⟨by decide, by decide⟩ ⟨by decide, by decide⟩
  ⟨⟨h.1, h.2.2.2.1, h.2.2.2.2.2.2.1 1 1 (by decide) (by decide)⟩, rfl, rfl, rfl,
    match (calibration_file_layout Demo.ext Demo.fresh
      (Demo.world_with_file "cam_calib_results.txt" ["1 2 1.5.5 1 1 0"])
      (by decide)).2 ["1 2 1.5.5 1 1 0".data] rfl rfl with
    | ⟨rows, cols, _, _, s1, s2, s3, _, _, _, vals, _, a1, a2, a3, _, _, _, a7, a8, a9, _⟩ =>
      have hr : rows.val = 1 := a7.symm
      have hc : cols.val = 2 := a8.symm
      ⟨rows, cols, s1, s2, s3, vals, a1, a2, a3,
        a9 0 1 (by rw [hr]; decide) (by rw [hc]; decide)⟩⟩

end camera_ns
/-! ## The calibration loop -/

namespace camera_ns

open Camera

theorem loop_touched_refl (c : Camera) : loop_touched c c :=
  ⟨_, _, _, _, _, rfl⟩

theorem loop_touched_trans {a b c : Camera} (h1 : loop_touched a b) (h2 : loop_touched b c) :
    loop_touched a c := by
  obtain ⟨f1, d1, p1, n1, g1, rfl⟩ := h1
  obtain ⟨f2, d2, p2, n2, g2, rfl⟩ := h2
  exact ⟨_, _, _, _, _, rfl⟩

theorem input_consumed_refl (w : World) : input_consumed w w :=
  ⟨_, _, rfl⟩

theorem input_consumed_trans {a b c : World} (h1 : input_consumed a b)
    (h2 : input_consumed b c) : input_consumed a c := by
  obtain ⟨f1, k1, rfl⟩ := h1
  obtain ⟨f2, k2, rfl⟩ := h2
  exact ⟨_, _, rfl⟩

/-- One pass of the loop body over a frame that was read, with a key to take. -/
theorem loop_body_read (E : Ext) (img : Image) (c : Camera) (w : World)
    (saved : List Image) (key : Int) (keys : List Int) (hk : w.keys = key :: keys)
    (hcount : c.calibartion_image_number = saved.length)
    (hlt : saved.length < c.number_of_images_to_calibrate)
    (hn : c.number_of_images_to_calibrate < 256) :
    ∃ c2, loop_touched c c2 ∧ c2.captured_frame = img ∧
      c2.calibartion_image_number =
        (saved ++ accepted E c.chessboard_dimensions [some img] [key]).length ∧
      (c2.calibration_in_progress = false → c.calibration_in_progress = true →
        to_char key = 27) ∧
      (to_char key = 27 → c2.calibration_in_progress = false) ∧
      (to_char key ≠ 27 → c2.calibration_in_progress = c.calibration_in_progress) ∧
      loop_body E (some img) c w saved =
        if (saved ++ accepted E c.chessboard_dimensions [some img] [key]).length ≥
            c.number_of_images_to_calibrate then
          Step.done (finish_calibration E c2 { w with keys := keys }
            (saved ++ accepted E c.chessboard_dimensions [some img] [key]))
        else
          Step.again c2 { w with keys := keys }
            (saved ++ accepted E c.chessboard_dimensions [some img] [key]) := by
  have hmod : (saved.length + 1) % 256 = saved.length + 1 := Nat.mod_eq_of_lt (by omega)
  by_cases h32 : to_char key = 32
  · cases hf : (E.findChessboardCorners img c.chessboard_dimensions).1
    · refine ⟨_, ⟨img, false, (E.findChessboardCorners img c.chessboard_dimensions).2,
        c.calibartion_image_number, c.calibration_in_progress, rfl⟩, rfl, ?_, ?_, ?_, ?_, ?_⟩
      · simp [accepted, hf, hcount]
      · intro h1 h2; exact absurd (h1.symm.trans h2) (by decide)
      · intro h; omega
      · intro _; rfl
      · simp [loop_body, hk, handle_key, h32, hf, accepted, hcount]
    · refine ⟨_, ⟨img, true, (E.findChessboardCorners img c.chessboard_dimensions).2,
        (c.calibartion_image_number + 1) % 256, c.calibration_in_progress, rfl⟩, rfl,
        ?_, ?_, ?_, ?_, ?_⟩
      · simp [accepted, hf, h32, hcount, hmod]
      · intro h1 h2; exact absurd (h1.symm.trans h2) (by decide)
      · intro h; omega
      · intro _; rfl
      · simp [loop_body, hk, handle_key, h32, hf, accepted, hcount, hmod]
  · by_cases h27 : to_char key = 27
    · refine ⟨_, ⟨img, (E.findChessboardCorners img c.chessboard_dimensions).1,
        (E.findChessboardCorners img c.chessboard_dimensions).2,
        c.calibartion_image_number, false, rfl⟩, rfl, ?_, ?_, ?_, ?_, ?_⟩
      · simp [accepted, h32, hcount]
      · intro _ _; exact h27
      · intro _; rfl
      · intro h; exact absurd h27 h
      · simp [loop_body, hk, handle_key, h32, h27, accepted, hcount]
    · refine ⟨_, ⟨img, (E.findChessboardCorners img c.chessboard_dimensions).1,
        (E.findChessboardCorners img c.chessboard_dimensions).2,
        c.calibartion_image_number, c.calibration_in_progress, rfl⟩, rfl, ?_, ?_, ?_, ?_, ?_⟩
      · simp [accepted, h32, hcount]
      · intro h1 h2; exact absurd (h1.symm.trans h2) (by decide)
      · intro h; exact absurd h h27
      · intro _; rfl
      · simp [loop_body, hk, handle_key, h32, h27, accepted, hcount]


theorem loop_touched_target {c c2 : Camera} (h : loop_touched c c2) :
    c2.number_of_images_to_calibrate = c.number_of_images_to_calibrate ∧
    c2.chessboard_dimensions = c.chessboard_dimensions := by
  obtain ⟨_, _, _, _, _, rfl⟩ := h
  exact ⟨rfl, rfl⟩

theorem accepted_cons (E : Ext) (dims : Size) (img : Image) (fs : List (Option Image))
    (key : Int) (ks : List Int) :
    accepted E dims (some img :: fs) (key :: ks) =
      accepted E dims [some img] [key] ++ accepted E dims fs ks := by
  simp [accepted]

/-- What the calibration loop does, from any pass on: either it reaches the solver, at the
end of the pass in which the number of frames saved reaches the target, or it ends without
the solver, by the cancel key or a failed read. -/
theorem calibrate_loop_spec (E : Ext) (frames : List (Option Image)) :
    ∀ (c : Camera) (w : World) (saved : List Image) (o : Out Unit),
    c.calibartion_image_number = saved.length →
    saved.length < c.number_of_images_to_calibrate →
    c.number_of_images_to_calibrate < 256 →
    calibrate_loop E frames c w saved = some o →
    (∃ k c2 w2, 1 ≤ k ∧ k ≤ frames.length ∧ loop_touched c c2 ∧ input_consumed w w2 ∧
      w2.frames = frames.drop k ∧
      (saved ++ accepted E c.chessboard_dimensions (frames.take k) (w.keys.take k)).length =
        c.number_of_images_to_calibrate ∧
      (saved ++ accepted E c.chessboard_dimensions (frames.take (k - 1))
        (w.keys.take (k - 1))).length + 1 = c.number_of_images_to_calibrate ∧
      c2.calibartion_image_number = c.number_of_images_to_calibrate ∧
      o = finish_calibration E c2 w2
        (saved ++ accepted E c.chessboard_dimensions (frames.take k) (w.keys.take k))) ∨
    (loop_touched c o.cam ∧ input_consumed w o.world ∧
      o.cam.calibration_in_progress = false ∧
      o.cam.calibartion_image_number ≤ c.number_of_images_to_calibrate ∧
      (o.res = Res.ok () ∨ o.res.kind = some ExceptionID.camera_reading_failure)) := by
  induction frames with
  | nil =>
    intro c w saved o hcount hlt hn h
    cases hp : c.calibration_in_progress
    · simp only [calibrate_loop, hp, Bool.false_eq_true, if_false, Option.some.injEq] at h
      subst h
      exact Or.inr ⟨loop_touched_refl c, input_consumed_refl w, hp,
        (show c.calibartion_image_number ≤ c.number_of_images_to_calibrate by omega),
        Or.inl rfl⟩
    · simp [calibrate_loop, hp] at h
  | cons f frames ih =>
    intro c w saved o hcount hlt hn h
    cases hp : c.calibration_in_progress
    · simp only [calibrate_loop, hp, Bool.false_eq_true, if_false, Option.some.injEq] at h
      subst h
      exact Or.inr ⟨loop_touched_refl c, input_consumed_refl w, hp,
        (show c.calibartion_image_number ≤ c.number_of_images_to_calibrate by omega),
        Or.inl rfl⟩
    · simp only [calibrate_loop, hp, if_true] at h
      cases f with
      | none =>
        simp only [loop_body, Option.some.injEq] at h
        subst h
        exact Or.inr ⟨⟨_, _, _, _, _, rfl⟩, ⟨_, _, rfl⟩, rfl,
          (show c.calibartion_image_number ≤ c.number_of_images_to_calibrate by omega),
          Or.inr rfl⟩
      | some img =>
        cases hk : w.keys with
        | nil => simp [loop_body, hk] at h
        | cons key keys =>
          obtain ⟨c2, ht, _, hcnt, _, _, _, hbody⟩ :=
            loop_body_read E img c { w with frames := frames } saved key keys hk hcount hlt hn
          rw [hbody] at h
          by_cases hge : (saved ++ accepted E c.chessboard_dimensions [some img] [key]).length ≥
              c.number_of_images_to_calibrate
          · simp only [hge, if_true, Option.some.injEq] at h
            have hle : (accepted E c.chessboard_dimensions [some img] [key]).length ≤ 1 := by
              simp only [accepted]; split <;> simp
            refine Or.inl ⟨1, c2, ({ w with frames := frames, keys := keys } : World), le_refl _,
              by simp, ht, ⟨_, _, rfl⟩, by simp, ?_, ?_, ?_, ?_⟩
            · simp only [List.take_succ_cons, List.take_zero]
              simp only [List.length_append] at hge ⊢
              omega
            · simp only [Nat.sub_self, List.take_zero, accepted, List.append_nil]
              simp only [List.length_append] at hge
              omega
            · rw [hcnt]
              simp only [List.length_append] at hge ⊢
              omega
            · simp only [List.take_succ_cons, List.take_zero]
              exact h.symm
          · simp only [hge, if_false] at h
            have hcfg := loop_touched_target ht
            have hlt2 : (saved ++ accepted E c.chessboard_dimensions [some img] [key]).length <
                c2.number_of_images_to_calibrate := by rw [hcfg.1]; omega
            rcases ih c2 _ _ o hcnt hlt2 (by rw [hcfg.1]; exact hn) h with
              ⟨k, c3, w3, hk1, hk2, ht3, hw3, hfr, hlen, hprev, hc3, ho⟩ |
              ⟨ht3, hw3, hprog, hle, hres⟩
            · rw [hcfg.1, hcfg.2] at hlen hprev
              rw [hcfg.1] at hc3
              rw [hcfg.2] at ho
              have hkeys : ({ w with frames := frames, keys := keys } : World).keys = keys := rfl
              rw [hkeys] at hlen hprev ho
              refine Or.inl ⟨k + 1, c3, w3, by omega, by simp; omega, loop_touched_trans ht ht3,
                input_consumed_trans ⟨_, _, rfl⟩ hw3, by simpa using hfr, ?_, ?_, hc3, ?_⟩
              · rw [List.take_succ_cons, List.take_succ_cons, accepted_cons, ← List.append_assoc]
                exact hlen
              · obtain ⟨j, rfl⟩ : ∃ j, k = j + 1 := ⟨k - 1, by omega⟩
                simp only [Nat.add_sub_cancel] at hprev ⊢
                rw [List.take_succ_cons, List.take_succ_cons, accepted_cons,
                  ← List.append_assoc]
                exact hprev
              · rw [List.take_succ_cons, List.take_succ_cons, accepted_cons, ← List.append_assoc]
                exact ho
            · exact Or.inr ⟨loop_touched_trans ht ht3, input_consumed_trans ⟨_, _, rfl⟩ hw3,
                hprog, by rw [← hcfg.1]; exact hle, hres⟩


/-- What `save_camera_calibration` leaves alone. -/
theorem save_camera_calibration_frame (E : Ext) (c : Camera) (w : World) :
    (∃ progress, (save_camera_calibration E c w).cam =
      { c with calibration_in_progress := progress }) ∧
    (∃ files, (save_camera_calibration E c w).world = { w with files := files }) := by
  unfold save_camera_calibration
  split
  · exact ⟨⟨_, rfl⟩, ⟨_, rfl⟩⟩
  · split
    · exact ⟨⟨_, rfl⟩, ⟨_, rfl⟩⟩
    · exact ⟨⟨_, rfl⟩, ⟨_, rfl⟩⟩

/-- What `calibration_backend` leaves alone, and that it leaves its record. -/
theorem calibration_backend_frame (E : Ext) (c : Camera) (w : World) (s : List Image) :
    (∃ progress k d, (calibration_backend E c w s).cam =
      { c with calibration_in_progress := progress, cam_matrix := k, dist_coeffs := d }) ∧
    (calibration_backend E c w s).world =
      { w with backend_calls := w.backend_calls ++ [s] } := by
  by_cases hs : s.length = 0
  · simp only [calibration_backend, hs, if_true]
    exact ⟨⟨_, _, _, rfl⟩, trivial⟩
  · by_cases hz : c.chessboard_dimensions.width = 0 ∨ c.chessboard_dimensions.height = 0
    · simp only [calibration_backend, hs, hz, if_true, if_false]
      exact ⟨⟨_, _, _, rfl⟩, trivial⟩
    · cases hsq : c.chessboard_square_dimension.isZero
      · simp only [calibration_backend, create_known_board_positions, hs, hz, hsq, if_false,
          Bool.false_eq_true]
        split
        · exact ⟨⟨_, _, _, rfl⟩, rfl⟩
        · exact ⟨⟨_, _, _, rfl⟩, rfl⟩
      · simp only [calibration_backend, create_known_board_positions, hs, hz, hsq, if_true,
          if_false]
        exact ⟨⟨_, _, _, rfl⟩, rfl⟩


theorem calibration_backend_zero_geometry (E : Ext) (c : Camera) (w : World) (s : List Image)
    (hs : s.length ≠ 0)
    (hz : c.chessboard_dimensions.width = 0 ∨ c.chessboard_dimensions.height = 0) :
    (calibration_backend E c w s).res =
      raise "Cannot calibrate camera with chessboard 0 dimension"
        ExceptionID.wrong_chessboard_dimensions := by
  simp only [calibration_backend, hs, hz, if_true, if_false]

/-- What the closing `if` of the loop body does to the controller and the world. -/
theorem finish_calibration_spec (E : Ext) (c : Camera) (w : World) (s : List Image) :
    (∃ files, (finish_calibration E c w s).world =
      { w with backend_calls := w.backend_calls ++ [s], files := files }) ∧
    (finish_calibration E c w s).cam.calibartion_image_number = c.calibartion_image_number ∧
    ((finish_calibration E c w s).res = Res.ok () →
      (finish_calibration E c w s).cam.calibrated = true ∧
      (finish_calibration E c w s).cam.calibration_in_progress = false) ∧
    ((finish_calibration E c w s).res ≠ Res.ok () →
      (finish_calibration E c w s).cam.calibrated = c.calibrated) := by
  obtain ⟨⟨p, k, d, hc1⟩, hw1⟩ := calibration_backend_frame E c w s
  unfold finish_calibration
  cases h1 : (calibration_backend E c w s).res with
  | thrown t =>
    simp only [h1]
    refine ⟨⟨w.files, hw1⟩, by rw [hc1], by simp, fun _ => by rw [hc1]⟩
  | ok _ =>
    obtain ⟨⟨p2, hc2⟩, ⟨fl, hw2⟩⟩ := save_camera_calibration_frame E
      (calibration_backend E c w s).cam (calibration_backend E c w s).world
    simp only [h1]
    cases h2 : (save_camera_calibration E (calibration_backend E c w s).cam
        (calibration_backend E c w s).world).res with
    | thrown t =>
      simp only [h2]
      refine ⟨⟨fl, by rw [hw2, hw1]⟩, by rw [hc2, hc1], by simp, fun _ => by rw [hc2, hc1]⟩
    | ok _ =>
      simp only [h2]
      refine ⟨⟨fl, by rw [hw2, hw1]⟩, by rw [hc2, hc1], by simp, fun h => ?_⟩
      exact absurd rfl h

theorem finish_calibration_zero_geometry (E : Ext) (c : Camera) (w : World) (s : List Image)
    (hs : s.length ≠ 0)
    (hz : c.chessboard_dimensions.width = 0 ∨ c.chessboard_dimensions.height = 0) :
    (finish_calibration E c w s).res.kind = some ExceptionID.wrong_chessboard_dimensions := by
  unfold finish_calibration
  simp only [calibration_backend_zero_geometry E c w s hs hz, raise, Res.kind]


theorem calibrate_loop_idle (E : Ext) (frames : List (Option Image)) (c : Camera) (w : World)
    (s : List Image) (h : c.calibration_in_progress = false) :
    calibrate_loop E frames c w s = some ⟨Res.ok (), c, w⟩ := by
  cases frames <;> simp [calibrate_loop, h]

/-- With the id set, the device open or opening, and a target that is not zero,
`calibrate` is its loop, started with the flags and the counter reset. -/
theorem calibrate_enters_loop (E : Ext) (c : Camera) (w : World)
    (hid : c.camera_id ≠ -1)
    (hopen : c.cam.opened = true ∨ w.device_ok c.camera_id = true)
    (hn : c.number_of_images_to_calibrate ≠ 0) :
    calibrate E c w = calibrate_loop E w.frames (loop_entry c) w [] := by
  unfold loop_entry
  obtain ⟨a1, a2, a3, a4, a5, a6, a7, a8, a9, a10, a11, a12, a13, ⟨op⟩, a15, a16, a17, a18,
    a19, a20, a21⟩ := c
  cases op
  · have hdev : w.device_ok a5 = true := by simpa using hopen
    simp only [calibrate, ensure_open, open_, hdev]
    simp [hid, hn]
  · simp only [calibrate, ensure_open]
    simp [hid, hn]

/-- Otherwise `calibrate` ends before its loop, with a fault, and has touched nothing but
the capture device. -/
theorem calibrate_before_loop (E : Ext) (c : Camera) (w : World)
    (h : c.camera_id = -1 ∨ (c.cam.opened = false ∧ w.device_ok c.camera_id = false) ∨
      c.number_of_images_to_calibrate = 0) :
    ∃ o, calibrate E c w = some o ∧ o.world = w ∧ (∃ v, o.cam = { c with cam := v }) ∧
      (o.res.kind = some ExceptionID.camera_wrong_id ∨
        (o.res.kind = some ExceptionID.no_calibration_images ∧
          c.camera_id ≠ -1 ∧ c.number_of_images_to_calibrate = 0)) := by
  obtain ⟨a1, a2, a3, a4, a5, a6, a7, a8, a9, a10, a11, a12, a13, ⟨op⟩, a15, a16, a17, a18,
    a19, a20, a21⟩ := c
  cases op <;> cases hdev : w.device_ok a5 <;> by_cases hid : a5 = -1 <;>
    by_cases hn : a9 = 0 <;>
    simp_all [calibrate, ensure_open, open_, raise, Res.kind]

end camera_ns

namespace camera_ns

open Camera

theorem calibrate_loop_cons (E : Ext) (f : Option Image) (frames : List (Option Image))
    (c : Camera) (w : World) (saved : List Image) (hp : c.calibration_in_progress = true) :
    calibrate_loop E (f :: frames) c w saved =
      match loop_body E f c { w with frames := frames } saved with
      | .done o => some o
      | .starved => none
      | .again c w saved => calibrate_loop E frames c w saved := by
  rw [calibrate_loop]
  simp only [hp, if_true]

/-- A cancel key in a pass before the target is reached ends the loop without the solver. -/
theorem calibrate_loop_cancel (E : Ext) (pre : List Image) :
    ∀ (kpre : List Int) (c : Camera) (w : World) (saved : List Image) (img : Image)
      (key : Int) (rf : List (Option Image)) (rk : List Int),
    kpre.length = pre.length → to_char key = 27 →
    c.calibartion_image_number = saved.length →
    (saved ++ accepted E c.chessboard_dimensions (pre.map some) kpre).length <
      c.number_of_images_to_calibrate →
    c.number_of_images_to_calibrate < 256 →
    w.keys = kpre ++ key :: rk →
    ∃ o, calibrate_loop E (pre.map some ++ some img :: rf) c w saved = some o ∧
      o.res = Res.ok () ∧ loop_touched c o.cam ∧ input_consumed w o.world ∧
      o.cam.calibration_in_progress = false := by
  induction pre with
  | nil =>
    intro kpre c w saved img key rf rk hlen h27 hcount hlt hn hk
    have hkpre : kpre = [] := List.length_eq_zero.mp hlen
    subst hkpre
    cases hp : c.calibration_in_progress
    · exact ⟨_, calibrate_loop_idle E _ c w saved hp, rfl, loop_touched_refl c,
        input_consumed_refl w, hp⟩
    · have hlt0 : saved.length < c.number_of_images_to_calibrate := by
        simpa [accepted] using hlt
      obtain ⟨c2, ht, _, _, _, hstop, _, hbody⟩ :=
        loop_body_read E img c { w with frames := rf } saved key rk hk hcount hlt0 hn
      have hacc : accepted E c.chessboard_dimensions [some img] [key] = [] := by
        simp [accepted, h27]
      rw [hacc, List.append_nil] at hbody
      refine ⟨⟨Res.ok (), c2, ({ w with frames := rf, keys := rk } : World)⟩, ?_, rfl, ht,
        ⟨rf, rk, rfl⟩, hstop h27⟩
      rw [List.map_nil, List.nil_append, calibrate_loop_cons E _ _ _ _ _ hp, hbody,
        if_neg (Nat.not_le.mpr hlt0)]
      exact calibrate_loop_idle E _ c2 _ saved (hstop h27)
  | cons p pre ih =>
    intro kpre c w saved img key rf rk hlen h27 hcount hlt hn hk
    cases kpre with
    | nil => simp at hlen
    | cons k0 kpre =>
      cases hp : c.calibration_in_progress
      · exact ⟨_, calibrate_loop_idle E _ c w saved hp, rfl, loop_touched_refl c,
          input_consumed_refl w, hp⟩
      · rw [List.map_cons, accepted_cons, ← List.append_assoc] at hlt
        have hlt1 : (saved ++ accepted E c.chessboard_dimensions [some p] [k0]).length <
            c.number_of_images_to_calibrate := by
          simp only [List.length_append] at hlt ⊢
          omega
        have hlt0 : saved.length < c.number_of_images_to_calibrate := by
          simp only [List.length_append] at hlt1
          omega
        obtain ⟨c2, ht, _, hcnt, _, _, _, hbody⟩ :=
          loop_body_read E p c { w with frames := pre.map some ++ some img :: rf } saved k0
            (kpre ++ key :: rk) hk hcount hlt0 hn
        have hcfg := loop_touched_target ht
        obtain ⟨o, ho, hres, ht2, hw2, hprog⟩ :=
          ih kpre c2 { w with frames := pre.map some ++ some img :: rf,
                              keys := kpre ++ key :: rk }
            (saved ++ accepted E c.chessboard_dimensions [some p] [k0]) img key rf rk
            (by simpa using hlen) h27 hcnt (by rw [hcfg.1, hcfg.2]; exact hlt)
            (by rw [hcfg.1]; exact hn) rfl
        refine ⟨o, ?_, hres, loop_touched_trans ht ht2,
          input_consumed_trans ⟨_, _, rfl⟩ hw2, hprog⟩
        rw [List.map_cons, List.cons_append, calibrate_loop_cons E _ _ _ _ _ hp, hbody,
          if_neg (Nat.not_le.mpr hlt1)]
        exact ho

/-- When the target number of frames gets saved before any cancel key or failed read,
the loop reaches the solver. -/
theorem calibrate_loop_reach (E : Ext) (pre : List Image) :
    ∀ (kpre : List Int) (c : Camera) (w : World) (saved : List Image)
      (rf : List (Option Image)) (rk : List Int),
    kpre.length = pre.length → (∀ key ∈ kpre, to_char key ≠ 27) →
    c.calibartion_image_number = saved.length →
    saved.length < c.number_of_images_to_calibrate →
    c.number_of_images_to_calibrate < 256 →
    c.calibration_in_progress = true →
    c.number_of_images_to_calibrate ≤
      (saved ++ accepted E c.chessboard_dimensions (pre.map some) kpre).length →
    w.keys = kpre ++ rk →
    ∃ o c2 w2 s, calibrate_loop E (pre.map some ++ rf) c w saved = some o ∧
      o = finish_calibration E c2 w2 s ∧ loop_touched c c2 ∧ input_consumed w w2 ∧
      s.length = c.number_of_images_to_calibrate := by
  induction pre with
  | nil =>
    intro kpre c w saved rf rk hlen _ _ hlt _ _ hge _
    have hkpre : kpre = [] := List.length_eq_zero.mp hlen
    subst hkpre
    simp [accepted] at hge
    omega
  | cons p pre ih =>
    intro kpre c w saved rf rk hlen hno hcount hlt hn hp hge hk
    cases kpre with
    | nil => simp at hlen
    | cons k0 kpre =>
      obtain ⟨c2, ht, _, hcnt, _, _, hkeep, hbody⟩ :=
        loop_body_read E p c { w with frames := pre.map some ++ rf } saved k0
          (kpre ++ rk) hk hcount hlt hn
      have hcfg := loop_touched_target ht
      have hle : (accepted E c.chessboard_dimensions [some p] [k0]).length ≤ 1 := by
        simp only [accepted]; split <;> simp
      by_cases hdone : (saved ++ accepted E c.chessboard_dimensions [some p] [k0]).length ≥
          c.number_of_images_to_calibrate
      · refine ⟨_, c2, ({ w with frames := pre.map some ++ rf, keys := kpre ++ rk } : World),
          saved ++ accepted E c.chessboard_dimensions [some p] [k0], ?_, rfl, ht,
          ⟨_, _, rfl⟩, ?_⟩
        · rw [List.map_cons, List.cons_append, calibrate_loop_cons E _ _ _ _ _ hp, hbody,
            if_pos hdone]
        · simp only [List.length_append] at hdone ⊢
          omega
      · rw [List.map_cons, accepted_cons, ← List.append_assoc] at hge
        have hp2 : c2.calibration_in_progress = true := by
          rw [hkeep (hno k0 (List.mem_cons_self _ _))]; exact hp
        obtain ⟨o, c3, w3, s, ho, hfin, ht3, hw3, hs⟩ :=
          ih kpre c2 { w with frames := pre.map some ++ rf, keys := kpre ++ rk }
            (saved ++ accepted E c.chessboard_dimensions [some p] [k0]) rf rk
            (by simpa using hlen) (fun key hkey => hno key (List.mem_cons_of_mem _ hkey))
            hcnt (by rw [hcfg.1]; omega) (by rw [hcfg.1]; exact hn) hp2
            (by rw [hcfg.1, hcfg.2]; exact hge) rfl
        refine ⟨o, c3, w3, s, ?_, hfin, loop_touched_trans ht ht3,
          input_consumed_trans ⟨_, _, rfl⟩ hw3, by rw [hs, hcfg.1]⟩
        rw [List.map_cons, List.cons_append, calibrate_loop_cons E _ _ _ _ _ hp, hbody,
          if_neg hdone]
        exact ho

end camera_ns

namespace camera_ns

open Camera

theorem loop_touched_result {c c2 : Camera} (h : loop_touched c c2) :
    c2.calibrated = c.calibrated ∧ c2.cam_matrix = c.cam_matrix ∧
    c2.dist_coeffs = c.dist_coeffs := by
  obtain ⟨_, _, _, _, _, rfl⟩ := h
  exact ⟨rfl, rfl, rfl⟩

theorem input_consumed_rest {w w2 : World} (h : input_consumed w w2) :
    w2.backend_calls = w.backend_calls ∧ w2.files = w.files := by
  obtain ⟨_, _, rfl⟩ := h
  exact ⟨rfl, rfl⟩

/-- Every frame the loop saves was read in some pass in which the detector found the
pattern and the key was the space. -/
theorem mem_accepted (E : Ext) (dims : Size) (fs : List (Option Image)) :
    ∀ (ks : List Int) (img : Image), img ∈ accepted E dims fs ks →
    ∃ (i : Nat) (key : Int), fs[i]? = some (some img) ∧ ks[i]? = some key ∧
      to_char key = 32 ∧
      (E.findChessboardCorners img dims).1 = true := by
  induction fs with
  | nil => intro ks img h; simp [accepted] at h
  | cons f fs ih =>
    intro ks img h
    cases f with
    | none => simp [accepted] at h
    | some f =>
      cases ks with
      | nil => simp [accepted] at h
      | cons k ks =>
        simp only [accepted, List.mem_append] at h
        rcases h with h | h
        · split at h
          · rename_i hc
            simp only [List.mem_singleton] at h
            subst h
            exact ⟨0, k, by simp, by simp, hc.2, hc.1⟩
          · simp at h
        · obtain ⟨i, key, h1, h2, h3, h4⟩ := ih ks img h
          exact ⟨i + 1, key, by simpa using h1, by simpa using h2, h3, h4⟩

/-- A pass of the loop body that goes round again keeps the counter equal to the number
of frames saved, below the target, and moves it by at most one. -/
theorem loop_body_again (E : Ext) (f : Option Image) (c1 : Camera) (w1 : World)
    (saved : List Image) (c2 : Camera) (w2 : World) (saved2 : List Image)
    (hcount : c1.calibartion_image_number = saved.length)
    (hlt : saved.length < c1.number_of_images_to_calibrate)
    (hn : c1.number_of_images_to_calibrate < 256)
    (h : loop_body E f c1 w1 saved = Step.again c2 w2 saved2) :
    c2.calibartion_image_number = saved2.length ∧
    saved2.length < c2.number_of_images_to_calibrate ∧
    c2.number_of_images_to_calibrate = c1.number_of_images_to_calibrate ∧
    (c2.calibartion_image_number = c1.calibartion_image_number ∨
      c2.calibartion_image_number = c1.calibartion_image_number + 1) := by
  cases f with
  | none => simp [loop_body] at h
  | some img =>
    cases hk : w1.keys with
    | nil => simp [loop_body, hk] at h
    | cons key keys =>
      obtain ⟨c3, ht, _, hcnt, _, _, _, hbody⟩ :=
        loop_body_read E img c1 w1 saved key keys hk hcount hlt hn
      rw [hbody] at h
      have hle : (accepted E c1.chessboard_dimensions [some img] [key]).length ≤ 1 := by
        simp only [accepted]; split <;> simp
      by_cases hge : (saved ++ accepted E c1.chessboard_dimensions [some img] [key]).length ≥
          c1.number_of_images_to_calibrate
      · rw [if_pos hge] at h
        cases h
      · rw [if_neg hge] at h
        injection h with h1 h2 h3
        subst h1 h3
        have hcfg := loop_touched_target ht
        refine ⟨hcnt, by rw [hcfg.1]; omega, hcfg.1, ?_⟩
        rw [hcnt, hcount]
        simp only [List.length_append]
        omega

/-! ## Calibration: target, geometry, cancel, persistence -/

/-- C5, where the code departs from it: with the id set, the device opening, a target of
one image and the pattern geometry left at 0 x 0, `calibrate` does not fail.  It enters
its loop, and a cancel key in the first pass makes it return normally; no fault is
raised.  The geometry is checked in `calibration_backend` only, after the target number
of frames has been saved. -/
theorem calibrate_zero_geometry_cancelled_returns :
    Demo.zero_geometry.camera_id ≠ -1 ∧
    (Demo.world [some Demo.board] [27]).device_ok Demo.zero_geometry.camera_id = true ∧
    Demo.zero_geometry.chessboard_dimensions.width = 0 ∧
    Demo.zero_geometry.chessboard_dimensions.height = 0 ∧
    ∃ o, calibrate Demo.ext Demo.zero_geometry (Demo.world [some Demo.board] [27]) = some o ∧
      o.res = Res.ok () ∧ o.res.kind = none :=
  ⟨by decide, rfl, rfl, rfl, _, rfl, rfl, rfl⟩

/-- With a detector that finds no pattern of the size the controller holds (a size with
a zero in it), `calibrate` never gets to the check of the geometry: whatever the frames
and the keys, it ends, if it ends, by returning normally after the cancel key or with
`camera_reading_failure`, and `calibration_backend` has not been called. -/
theorem calibrate_never_checks_unfound_geometry (E : Ext) (c : Camera) (w : World)
    (hid : c.camera_id ≠ -1)
    (hopen : c.cam.opened = true ∨ w.device_ok c.camera_id = true)
    (hn0 : c.number_of_images_to_calibrate ≠ 0) (hn : c.number_of_images_to_calibrate < 256)
    (hdet : ∀ img, (E.findChessboardCorners img c.chessboard_dimensions).1 = false)
    (o : Out Unit) (ho : calibrate E c w = some o) :
    (o.res = Res.ok () ∨ o.res.kind = some ExceptionID.camera_reading_failure) ∧
    o.world.backend_calls = w.backend_calls := by
  rw [calibrate_enters_loop E c w hid hopen hn0] at ho
  rcases calibrate_loop_spec E w.frames (loop_entry c) w [] o rfl (Nat.pos_of_ne_zero hn0) hn ho with
    ⟨k, c2, w2, _, _, _, _, _, hlen, _, _, _⟩ | ⟨_, hw, _, _, hres⟩
  · exfalso
    have hnil : accepted E (loop_entry c).chessboard_dimensions (w.frames.take k)
        (w.keys.take k) = [] := by
      rw [List.eq_nil_iff_forall_not_mem]
      intro img himg
      obtain ⟨_, _, _, _, _, hfound⟩ := mem_accepted E _ _ _ img himg
      rw [show (loop_entry c).chessboard_dimensions = c.chessboard_dimensions from rfl,
        hdet img] at hfound
      exact Bool.noConfusion hfound
    rw [hnil] at hlen
    exact hn0 hlen.symm
  · exact ⟨hres, (input_consumed_rest hw).1⟩

end camera_ns

namespace camera_ns

open Camera

/-- C6: in `calibrate` with a target n of at least one image (n an 8-bit value): if the
solver was called at all, it was called once, at the end of a pass k in which the number
of saved frames went from n - 1 to n, with exactly the n frames saved over the passes so
far, and the counter stands at n; every saved frame was read in a pass in which the
pattern was detected and the key was the space; a pass of the loop body that goes round
again leaves the counter equal to the number of frames saved, below n, and one above or
equal to what it was (it never exceeds n, never wraps); and a cancel key (27) in a pass
before n frames are saved makes `calibrate` return normally without the solver and without
writing any file, the calibrated and the in-progress flag false, the camera matrix and the
distortion coefficients unchanged. -/
theorem calibrate_solver_only_at_target (E : Ext) (c : Camera) (w : World)
    (hn1 : 1 ≤ c.number_of_images_to_calibrate)
    (hn : c.number_of_images_to_calibrate < 256) :
    (∀ o, calibrate E c w = some o →
      (o.world.backend_calls = w.backend_calls ∨
        ∃ k, 1 ≤ k ∧
          o.world.backend_calls = w.backend_calls ++
            [accepted E c.chessboard_dimensions (w.frames.take k) (w.keys.take k)] ∧
          (accepted E c.chessboard_dimensions (w.frames.take k) (w.keys.take k)).length =
            c.number_of_images_to_calibrate ∧
          (accepted E c.chessboard_dimensions (w.frames.take (k - 1))
            (w.keys.take (k - 1))).length + 1 = c.number_of_images_to_calibrate ∧
          o.cam.calibartion_image_number = c.number_of_images_to_calibrate ∧
          o.world.frames = w.frames.drop k) ∧
      (o.cam.calibartion_image_number ≤ c.number_of_images_to_calibrate ∨
        o.res.kind = some ExceptionID.camera_wrong_id)) ∧
    (∀ (fs : List (Option Image)) (ks : List Int) (img : Image),
      img ∈ accepted E c.chessboard_dimensions fs ks →
      ∃ (i : Nat) (key : Int), fs[i]? = some (some img) ∧ ks[i]? = some key ∧
        to_char key = 32 ∧ (E.findChessboardCorners img c.chessboard_dimensions).1 = true) ∧
    (∀ (f : Option Image) (c1 : Camera) (w1 : World) (saved : List Image)
      (c2 : Camera) (w2 : World) (saved2 : List Image),
      c1.calibartion_image_number = saved.length →
      saved.length < c1.number_of_images_to_calibrate →
      c1.number_of_images_to_calibrate < 256 →
      loop_body E f c1 w1 saved = Step.again c2 w2 saved2 →
      c2.calibartion_image_number = saved2.length ∧
      saved2.length < c2.number_of_images_to_calibrate ∧
      c2.number_of_images_to_calibrate = c1.number_of_images_to_calibrate ∧
      (c2.calibartion_image_number = c1.calibartion_image_number ∨
        c2.calibartion_image_number = c1.calibartion_image_number + 1)) ∧
    (c.camera_id ≠ -1 → (c.cam.opened = true ∨ w.device_ok c.camera_id = true) →
      ∀ (pre : List Image) (kpre : List Int) (img : Image) (key : Int)
        (rf : List (Option Image)) (rk : List Int),
      w.frames = pre.map some ++ some img :: rf → w.keys = kpre ++ key :: rk →
      kpre.length = pre.length → to_char key = 27 →
      (accepted E c.chessboard_dimensions (pre.map some) kpre).length <
        c.number_of_images_to_calibrate →
      ∃ o, calibrate E c w = some o ∧ o.res = Res.ok () ∧
        o.world.backend_calls = w.backend_calls ∧ o.world.files = w.files ∧
        o.cam.calibrated = false ∧ o.cam.calibration_in_progress = false ∧
        o.cam.cam_matrix = c.cam_matrix ∧ o.cam.dist_coeffs = c.dist_coeffs) := by
  have hn0 : c.number_of_images_to_calibrate ≠ 0 := by omega
  refine ⟨fun o ho => ?_, fun fs ks img h => mem_accepted E _ fs ks img h,
    fun f c1 w1 saved c2 w2 saved2 h1 h2 h3 h4 =>
      loop_body_again E f c1 w1 saved c2 w2 saved2 h1 h2 h3 h4, ?_⟩
  · by_cases hloop : c.camera_id ≠ -1 ∧
        (c.cam.opened = true ∨ w.device_ok c.camera_id = true)
    · rw [calibrate_enters_loop E c w hloop.1 hloop.2 hn0] at ho
      rcases calibrate_loop_spec E w.frames (loop_entry c) w [] o rfl
          (Nat.pos_of_ne_zero hn0) hn ho with
        ⟨k, c2, w2, hk1, _, _, hw, hfr, hlen, hprev, hc2, hfin⟩ | ⟨_, hw, _, hle, _⟩
      · obtain ⟨fl, hworld⟩ := (finish_calibration_spec E c2 w2
          ([] ++ accepted E (loop_entry c).chessboard_dimensions (w.frames.take k)
            (w.keys.take k))).1
        have hcnt := (finish_calibration_spec E c2 w2
          ([] ++ accepted E (loop_entry c).chessboard_dimensions (w.frames.take k)
            (w.keys.take k))).2.1
        rw [← hfin] at hworld hcnt
        refine ⟨Or.inr ⟨k, hk1, ?_, by simpa using hlen, by simpa using hprev,
          by rw [hcnt, hc2]; rfl, by rw [hworld]; exact hfr⟩, Or.inl ?_⟩
        · rw [hworld]
          show w2.backend_calls ++ _ = _
          rw [(input_consumed_rest hw).1]
          rfl
        · rw [hcnt, hc2]
          exact le_refl _
      · exact ⟨Or.inl (input_consumed_rest hw).1, Or.inl hle⟩
    · have hpre : c.camera_id = -1 ∨
          (c.cam.opened = false ∧ w.device_ok c.camera_id = false) ∨
          c.number_of_images_to_calibrate = 0 := by
        by_cases hid : c.camera_id = -1
        · exact Or.inl hid
        · right; left
          have := fun h => hloop ⟨hid, h⟩
          cases h1 : c.cam.opened <;> cases h2 : w.device_ok c.camera_id <;> simp_all
      obtain ⟨o2, ho2, hworld, _, hkind⟩ := calibrate_before_loop E c w hpre
      rw [ho2] at ho
      cases ho
      refine ⟨Or.inl (by rw [hworld]), Or.inr ?_⟩
      rcases hkind with h | h
      · exact h
      · exact absurd h.2.2 hn0
  · intro hid hopen pre kpre img key rf rk hf hk hlen h27 hlt
    rw [calibrate_enters_loop E c w hid hopen hn0, hf]
    obtain ⟨o, ho, hres, ht, hw, hprog⟩ :=
      calibrate_loop_cancel E pre kpre (loop_entry c) w [] img key rf rk hlen h27 rfl
        (by simpa using hlt) hn hk
    have hr := loop_touched_result ht
    exact ⟨o, ho, hres, (input_consumed_rest hw).1, (input_consumed_rest hw).2,
      by rw [hr.1]; rfl, hprog, by rw [hr.2.1]; rfl, by rw [hr.2.2]; rfl⟩

/-- A run of a configured controller with a target of two images: a frame is saved, a
frame without the pattern is not, then the cancel key ends the run. -/
theorem calibrate_solver_only_at_target_witness :
    ∃ o, calibrate Demo.ext (Demo.configured 2)
        (Demo.world [some Demo.board, some Demo.wall, some Demo.board, some Demo.board]
          [32, 32, 27, 32]) = some o ∧
      o.res = Res.ok () ∧ o.world.backend_calls = [] ∧
      o.world.files = (Demo.world [] []).files ∧
      o.cam.calibrated = false ∧ o.cam.calibration_in_progress = false ∧
      o.cam.cam_matrix = (Demo.configured 2).cam_matrix ∧
      o.cam.dist_coeffs = (Demo.configured 2).dist_coeffs :=
  (calibrate_solver_only_at_target Demo.ext (Demo.configured 2)
    (Demo.world [some Demo.board, some Demo.wall, some Demo.board, some Demo.board]
      [32, 32, 27, 32]) (by decide) (by decide)).2.2.2 (by decide) (Or.inr rfl)
    [Demo.board, Demo.wall] [32, 32] Demo.board 27 [some Demo.board] [32] rfl rfl rfl
    (by decide) (by decide)

/-- C7 fails on the code: with a results file that cannot be opened for writing (and is
not the lone space), `save_camera_calibration` returns false without a fault, and
`calibrate`, which does not look at that value, returns normally with the calibrated flag
set after the solver has run, while no file has been written. -/
theorem calibrate_sets_calibrated_without_file :
    (Demo.world [some Demo.board] [32]).writable
      Demo.unwritable.camera_calibration_file_name = false ∧
    (save_camera_calibration Demo.ext Demo.unwritable
      (Demo.world [some Demo.board] [32])).res = Res.ok false ∧
    ∃ o, calibrate Demo.ext Demo.unwritable (Demo.world [some Demo.board] [32]) = some o ∧
      o.res = Res.ok () ∧ o.cam.calibrated = true ∧
      o.world.backend_calls = [[Demo.board]] ∧
      o.world.files Demo.unwritable.camera_calibration_file_name = none :=
  ⟨rfl, rfl, _, rfl, rfl, rfl, rfl, rfl⟩

end camera_ns

/-! ## Faults of the device-facing members -/

namespace camera_ns

open Camera

/-- C1: with the device id unset (-1), `calibrate` ends with a fault of kind
`camera_wrong_id`, whether the device is open already, opens now or fails to open; it reads
no frame and no key, and leaves the calibrated flag, the in-progress flag and the
captured-image counter as they were. -/
theorem calibrate_unset_id_raises_wrong_id (E : Ext) (c : Camera) (w : World)
    (h : c.camera_id = -1) :
    ∃ o, calibrate E c w = some o ∧ o.res.kind = some ExceptionID.camera_wrong_id ∧
      o.world.frames = w.frames ∧ o.world.keys = w.keys ∧
      o.cam.captured_frame = c.captured_frame ∧
      o.cam.calibrated = c.calibrated ∧
      o.cam.calibration_in_progress = c.calibration_in_progress ∧
      o.cam.calibartion_image_number = c.calibartion_image_number := by
  cases hop : c.cam.opened <;> cases hdev : w.device_ok (-1) <;>
    simp [calibrate, ensure_open, open_, hop, hdev, h, raise, Res.kind]

/-- The fresh controller, whose id is -1, gets the fault from `calibrate`. -/
theorem calibrate_unset_id_raises_wrong_id_witness :
    Demo.fresh.camera_id = -1 ∧
    ∃ o, calibrate Demo.ext Demo.fresh (Demo.world [some Demo.board] [32]) = some o ∧
      o.res.kind = some ExceptionID.camera_wrong_id ∧
      o.world.frames = [some Demo.board] ∧ o.world.keys = [32] ∧
      o.cam.captured_frame = Demo.fresh.captured_frame ∧
      o.cam.calibrated = Demo.fresh.calibrated ∧
      o.cam.calibration_in_progress = Demo.fresh.calibration_in_progress ∧
      o.cam.calibartion_image_number = Demo.fresh.calibartion_image_number :=
  ⟨rfl, calibrate_unset_id_raises_wrong_id Demo.ext Demo.fresh
    (Demo.world [some Demo.board] [32]) rfl⟩

/-- C8 as stated fails: with the id set and the device open, a failed device read makes
`read` return `false`; no fault is raised. -/
theorem read_failure_is_returned_not_raised :
    ({ Demo.configured 1 with cam := ⟨true⟩ } : Camera).camera_id ≠ -1 ∧
    ∃ o, Camera.read { Demo.configured 1 with cam := ⟨true⟩ } (Demo.world [none] []) = some o ∧
      o.res = Res.ok false ∧
      o.res.kind ≠ some ExceptionID.camera_reading_failure :=
  ⟨by decide, _, rfl, rfl, by decide⟩

/-- C8, amended: with the device id unset (-1), `read` ends with a fault of kind
`camera_wrong_id` and touches neither the controller nor the world (no attempt to open or
to read); with the id set and the device open, a failed device read makes `read` return
`false`, with an empty captured frame. -/
theorem read_unset_id_raises_and_failed_read_returns_false (c : Camera) (w : World) :
    (c.camera_id = -1 →
      ∃ o, Camera.read c w = some o ∧ o.res.kind = some ExceptionID.camera_wrong_id ∧
        o.cam = c ∧ o.world = w) ∧
    (c.camera_id ≠ -1 → c.cam.opened = true → ∀ rest, w.frames = none :: rest →
      ∃ o, Camera.read c w = some o ∧ o.res = Res.ok false ∧
        o.cam.captured_frame = Image.blank ∧ o.world.frames = rest) := by
  refine ⟨fun h => ?_, fun h hop rest hf => ?_⟩
  · simp [Camera.read, h, raise, Res.kind]
  · simp [Camera.read, h, ensure_open, hop, hf]

/-- Both halves on concrete controllers: the fresh one (id -1) and a configured one with
its device open and a failing read. -/
theorem read_unset_id_raises_and_failed_read_returns_false_witness :
    (∃ o, Camera.read Demo.fresh (Demo.world [none] []) = some o ∧
        o.res.kind = some ExceptionID.camera_wrong_id ∧
        o.cam = Demo.fresh ∧ o.world = Demo.world [none] []) ∧
    (∃ o, Camera.read { Demo.configured 1 with cam := ⟨true⟩ } (Demo.world [none] []) = some o ∧
        o.res = Res.ok false ∧ o.cam.captured_frame = Image.blank ∧ o.world.frames = []) :=
  ⟨(read_unset_id_raises_and_failed_read_returns_false Demo.fresh
      (Demo.world [none] [])).1 rfl,
   (read_unset_id_raises_and_failed_read_returns_false
      { Demo.configured 1 with cam := ⟨true⟩ } (Demo.world [none] [])).2
      (by decide) rfl [] rfl⟩

/-! ## Faults of the correction -/

/-- C4: `compensate_distortions` ends with a fault of kind `no_calibration_data` exactly
when the calibrated flag is false (whatever the frame); with the flag true it ends with a
fault of kind `empty_frame` exactly when the captured frame is empty; and a call that ends
with either fault leaves the controller and the world as they were. -/
theorem compensate_distortions_faults (E : Ext) (c : Camera) (w : World)
    (ct : CorrectionType) :
    ((compensate_distortions E c w ct).res.kind = some ExceptionID.no_calibration_data ↔
      c.calibrated = false) ∧
    (c.calibrated = true →
      ((compensate_distortions E c w ct).res.kind = some ExceptionID.empty_frame ↔
        c.captured_frame.empty = true)) ∧
    ((compensate_distortions E c w ct).res.kind = some ExceptionID.no_calibration_data ∨
      (compensate_distortions E c w ct).res.kind = some ExceptionID.empty_frame →
      (compensate_distortions E c w ct).cam = c ∧
      (compensate_distortions E c w ct).world = w) := by
  cases hcal : c.calibrated <;> cases hemp : c.captured_frame.empty <;> cases ct <;>
    simp [compensate_distortions, hcal, hemp, raise, Res.kind]

/-- The three situations on concrete controllers: not calibrated, calibrated without a
frame, and calibrated with a frame. -/
theorem compensate_distortions_faults_witness :
    (compensate_distortions Demo.ext Demo.fresh (Demo.world [] [])
        CorrectionType.remap).res.kind = some ExceptionID.no_calibration_data ∧
    (compensate_distortions Demo.ext (set_calibrated Demo.fresh true) (Demo.world [] [])
        CorrectionType.remap).res.kind = some ExceptionID.empty_frame ∧
    (compensate_distortions Demo.ext (set_calibrated Demo.fresh true) (Demo.world [] [])
        CorrectionType.remap).cam = set_calibrated Demo.fresh true :=
  ⟨(compensate_distortions_faults Demo.ext Demo.fresh (Demo.world [] [])
      CorrectionType.remap).1.2 rfl,
   ((compensate_distortions_faults Demo.ext (set_calibrated Demo.fresh true)
      (Demo.world [] []) CorrectionType.remap).2.1 rfl).2 rfl,
   ((compensate_distortions_faults Demo.ext (set_calibrated Demo.fresh true)
      (Demo.world [] []) CorrectionType.remap).2.2 (Or.inr rfl)).1⟩

/-! ## Faults of loading -/

/-- C2: when the file name is not the lone space and no file of that name can be opened
for reading, `load_camera_calibration_data` ends with a fault of kind
`wrong_calibration_file_name`; when the file name is the lone space it ends with a fault of
kind `empty_calibration_file_name` whatever the file system holds (no file is consulted);
either way the calibrated flag is what it was. -/
theorem load_faults_on_file_name (E : Ext) (c : Camera) (w : World) :
    (c.camera_calibration_file_name ≠ " " →
      w.files c.camera_calibration_file_name = none →
      (load_camera_calibration_data E c w).res.kind =
          some ExceptionID.wrong_calibration_file_name ∧
        (load_camera_calibration_data E c w).cam.calibrated = c.calibrated) ∧
    (c.camera_calibration_file_name = " " →
      (load_camera_calibration_data E c w).res.kind =
          some ExceptionID.empty_calibration_file_name ∧
        (load_camera_calibration_data E c w).cam.calibrated = c.calibrated ∧
        (load_camera_calibration_data E c w).world = w ∧
        ∀ w2 : World,
          (load_camera_calibration_data E c w2).res = (load_camera_calibration_data E c w).res ∧
          (load_camera_calibration_data E c w2).cam =
            (load_camera_calibration_data E c w).cam) := by
  refine ⟨fun hname hfile => ?_, fun hname => ?_⟩
  · simp [load_camera_calibration_data, hname, hfile, raise, Res.kind]
  · simp [load_camera_calibration_data, hname, raise, Res.kind]

/-- The unit test `LoadCameraDataFromFile` (a file that does not exist) and a controller
whose file name is the lone space. -/
theorem load_faults_on_file_name_witness :
    (load_camera_calibration_data Demo.ext
        (set_camera_calibration_results_file_name Demo.fresh "wyniki.tx")
        (Demo.world [] [])).res.kind = some ExceptionID.wrong_calibration_file_name ∧
    (load_camera_calibration_data Demo.ext
        (set_camera_calibration_results_file_name Demo.fresh " ")
        (Demo.world [] [])).res.kind = some ExceptionID.empty_calibration_file_name :=
  ⟨((load_faults_on_file_name Demo.ext
      (set_camera_calibration_results_file_name Demo.fresh "wyniki.tx")
      (Demo.world [] [])).1 (by decide) rfl).1,
   ((load_faults_on_file_name Demo.ext
      (set_camera_calibration_results_file_name Demo.fresh " ")
      (Demo.world [] [])).2 rfl).1⟩

/-- C10 as stated fails: on a file cut short after the two dimensions of the camera matrix,
`load_camera_calibration_data` ends with a stream failure, which is not a structured fault,
and the 3 x 3 camera matrix of the controller has been replaced by a 2 x 2 one. -/
theorem load_truncated_file_replaces_camera_matrix :
    (load_camera_calibration_data Demo.ext Demo.fresh
        (Demo.world_with_file "cam_calib_results.txt" ["2", "2"])).res =
      Res.thrown Thrown.stream_failure ∧
    (load_camera_calibration_data Demo.ext Demo.fresh
        (Demo.world_with_file "cam_calib_results.txt" ["2", "2"])).res.kind = none ∧
    Demo.fresh.cam_matrix.rows = 3 ∧
    (load_camera_calibration_data Demo.ext Demo.fresh
        (Demo.world_with_file "cam_calib_results.txt" ["2", "2"])).cam.cam_matrix.rows = 2 :=
  ⟨rfl, rfl, rfl, rfl⟩

/-- C10, amended: whenever `load_camera_calibration_data` does not return normally, the
calibrated flag is what it was before the call; and when the file name is the lone space or
the file cannot be opened, the call ends with a structured fault and the camera matrix and
the distortion coefficients are what they were before the call. -/
theorem load_failure_keeps_calibrated_flag (E : Ext) (c : Camera) (w : World) :
    ((load_camera_calibration_data E c w).res.returned = false →
      (load_camera_calibration_data E c w).cam.calibrated = c.calibrated) ∧
    (c.camera_calibration_file_name = " " ∨ w.files c.camera_calibration_file_name = none →
      (load_camera_calibration_data E c w).res.returned = false ∧
      (load_camera_calibration_data E c w).res.kind ≠ none ∧
      (load_camera_calibration_data E c w).cam.cam_matrix = c.cam_matrix ∧
      (load_camera_calibration_data E c w).cam.dist_coeffs = c.dist_coeffs ∧
      (load_camera_calibration_data E c w).cam.calibrated = c.calibrated) := by
  constructor
  · unfold load_camera_calibration_data
    split
    · simp
    · split
      · simp
      · rcases h1 : read_matrix E (fun rows columns => Mat.create rows columns w.junk)
            c.cam_matrix _ with ⟨m, _ | toks⟩
        · simp
        · rcases h2 : read_matrix E Mat.zeros c.dist_coeffs toks with ⟨m2, _ | toks2⟩ <;>
            simp [h2, Res.returned]
  · intro h
    by_cases hname : c.camera_calibration_file_name = " "
    · simp [load_camera_calibration_data, hname, raise, Res.kind, Res.returned]
    · have hfile := h.resolve_left hname
      simp [load_camera_calibration_data, hname, hfile, raise, Res.kind, Res.returned]

/-- A truncated file (a read error), for which the calibrated flag stays false, and the
unit test `LoadCameraDataFromFile` (a file that does not exist), for which the matrices
stay as well. -/
theorem load_failure_keeps_calibrated_flag_witness :
    (load_camera_calibration_data Demo.ext Demo.fresh
      (Demo.world_with_file "cam_calib_results.txt" ["2", "2"])).cam.calibrated =
        Demo.fresh.calibrated ∧
    ((load_camera_calibration_data Demo.ext
        (set_camera_calibration_results_file_name Demo.fresh "wyniki.tx")
        (Demo.world [] [])).res.returned = false ∧
      (load_camera_calibration_data Demo.ext
        (set_camera_calibration_results_file_name Demo.fresh "wyniki.tx")
        (Demo.world [] [])).res.kind ≠ none ∧
      (load_camera_calibration_data Demo.ext
        (set_camera_calibration_results_file_name Demo.fresh "wyniki.tx")
        (Demo.world [] [])).cam.cam_matrix =
          (set_camera_calibration_results_file_name Demo.fresh "wyniki.tx").cam_matrix ∧
      (load_camera_calibration_data Demo.ext
        (set_camera_calibration_results_file_name Demo.fresh "wyniki.tx")
        (Demo.world [] [])).cam.dist_coeffs =
          (set_camera_calibration_results_file_name Demo.fresh "wyniki.tx").dist_coeffs ∧
      (load_camera_calibration_data Demo.ext
        (set_camera_calibration_results_file_name Demo.fresh "wyniki.tx")
        (Demo.world [] [])).cam.calibrated =
          (set_camera_calibration_results_file_name Demo.fresh "wyniki.tx").calibrated) :=
  ⟨(load_failure_keeps_calibrated_flag Demo.ext Demo.fresh
      (Demo.world_with_file "cam_calib_results.txt" ["2", "2"])).1 rfl,
   (load_failure_keeps_calibrated_flag Demo.ext
      (set_camera_calibration_results_file_name Demo.fresh "wyniki.tx")
      (Demo.world [] [])).2 (Or.inr rfl)⟩

end camera_ns

/-! ## The state a constructor leaves, and the setters -/

namespace camera_ns

open Camera

/-- C11 fails on the code: after `set_chessboard_dimensions(6, 9)` on a fresh controller
the getters give height 6 and width 9 while the pattern size has height 9 and width 6; and
after `set_chessboard_width(9)` alone the width getter gives 9 while the pattern size still
has width 0.  In general `set_chessboard_dimensions` leaves the height of the pattern size
equal to the width getter and its width equal to the height getter, and the two scalar
setters leave the pattern size as it was. -/
theorem chessboard_dimensions_disagree_with_getters :
    get_chessboard_height (set_chessboard_dimensions Demo.fresh 6 9) = 6 ∧
    get_chessboard_width (set_chessboard_dimensions Demo.fresh 6 9) = 9 ∧
    (get_chessboard_dimensions (set_chessboard_dimensions Demo.fresh 6 9)).height = 9 ∧
    (get_chessboard_dimensions (set_chessboard_dimensions Demo.fresh 6 9)).width = 6 ∧
    get_chessboard_width (set_chessboard_width Demo.fresh 9) = 9 ∧
    (get_chessboard_dimensions (set_chessboard_width Demo.fresh 9)).width = 0 ∧
    (∀ (c : Camera) (h n : Nat),
      (get_chessboard_dimensions (set_chessboard_dimensions c h n)).height =
        get_chessboard_width (set_chessboard_dimensions c h n) ∧
      (get_chessboard_dimensions (set_chessboard_dimensions c h n)).width =
        get_chessboard_height (set_chessboard_dimensions c h n)) ∧
    (∀ (c : Camera) (n : Nat),
      get_chessboard_dimensions (set_chessboard_width c n) = get_chessboard_dimensions c ∧
      get_chessboard_dimensions (set_chessboard_height c n) = get_chessboard_dimensions c) :=
  ⟨rfl, rfl, rfl, rfl, rfl, rfl, fun _ _ _ => ⟨rfl, rfl⟩, fun _ _ => ⟨rfl, rfl⟩⟩

/-- C12: whatever the storage held before, a freshly constructed controller reports
chessboard width 0 and height 0, pattern dimensions (0, 0), square size 0.0, device id -1,
calibrated flag false and calibration-in-progress flag false. -/
theorem fresh_controller_reports_defaults (raw : Camera) :
    get_chessboard_width (Camera.new raw) = 0 ∧
    get_chessboard_height (Camera.new raw) = 0 ∧
    get_chessboard_dimensions (Camera.new raw) = ⟨0, 0⟩ ∧
    get_chessboard_square_dimension (Camera.new raw) = F32.zero ∧
    get_camera_id (Camera.new raw) = -1 ∧
    get_calibrated (Camera.new raw) = false ∧
    get_calibration_in_progress (Camera.new raw) = false :=
  ⟨rfl, rfl, rfl, rfl, rfl, rfl, rfl⟩

/-- C13: after `set_camera_calibration_results_file_name(s)` the getter returns exactly
`s`, and the setter changes no other member of the controller: device id, pattern
geometry, square size, target count, flags and calibration result are what they were. -/
theorem results_file_name_round_trip (c : Camera) (s : String) :
    get_camera_calibration_results_file_name
      (set_camera_calibration_results_file_name c s) = s ∧
    set_camera_calibration_results_file_name c s =
      { c with camera_calibration_file_name := s } ∧
    get_camera_id (set_camera_calibration_results_file_name c s) = get_camera_id c ∧
    get_chessboard_width (set_camera_calibration_results_file_name c s) =
      get_chessboard_width c ∧
    get_chessboard_height (set_camera_calibration_results_file_name c s) =
      get_chessboard_height c ∧
    get_chessboard_dimensions (set_camera_calibration_results_file_name c s) =
      get_chessboard_dimensions c ∧
    get_chessboard_square_dimension (set_camera_calibration_results_file_name c s) =
      get_chessboard_square_dimension c ∧
    get_number_of_images_to_calibrate (set_camera_calibration_results_file_name c s) =
      get_number_of_images_to_calibrate c ∧
    get_calibrated (set_camera_calibration_results_file_name c s) = get_calibrated c ∧
    get_calibration_in_progress (set_camera_calibration_results_file_name c s) =
      get_calibration_in_progress c ∧
    (set_camera_calibration_results_file_name c s).cam_matrix = c.cam_matrix ∧
    (set_camera_calibration_results_file_name c s).dist_coeffs = c.dist_coeffs :=
  ⟨rfl, rfl, rfl, rfl, rfl, rfl, rfl, rfl, rfl, rfl, rfl, rfl⟩

/-- C15 fails on the code: the default calibration result, of a fresh controller and
after `set_default_camera_calibration_coefs`, is the 3 x 3 identity as camera matrix, and
as distortion coefficients a matrix whose entries are all zero but which has 3 rows and 3
columns: it is neither a single row nor a single column. -/
theorem default_distortion_coefficients_are_3_by_3 :
    (∀ raw : Camera,
      (Camera.new raw).cam_matrix = Mat.eye 3 3 ∧
      (Camera.new raw).dist_coeffs.rows = 3 ∧ (Camera.new raw).dist_coeffs.cols = 3 ∧
      (∀ r j, (Camera.new raw).dist_coeffs.atD r j = F64.zero) ∧
      ¬ ((Camera.new raw).dist_coeffs.rows = 1 ∨ (Camera.new raw).dist_coeffs.cols = 1)) ∧
    (∀ c : Camera,
      (set_default_camera_calibration_coefs c).cam_matrix = Mat.eye 3 3 ∧
      (set_default_camera_calibration_coefs c).dist_coeffs.rows = 3 ∧
      (set_default_camera_calibration_coefs c).dist_coeffs.cols = 3 ∧
      (∀ r j, (set_default_camera_calibration_coefs c).dist_coeffs.atD r j = F64.zero) ∧
      ¬ ((set_default_camera_calibration_coefs c).dist_coeffs.rows = 1 ∨
        (set_default_camera_calibration_coefs c).dist_coeffs.cols = 1)) ∧
    (∀ r j, (Mat.eye 3 3).atD r j = if r = j then F64.one else F64.zero) :=
  by
  refine ⟨fun raw => ⟨rfl, rfl, rfl, fun _ _ => rfl, ?_⟩,
    fun c => ⟨rfl, rfl, rfl, fun _ _ => rfl, ?_⟩, fun _ _ => rfl⟩
  · show ¬ ((3 : Nat) = 1 ∨ (3 : Nat) = 1)
    decide
  · show ¬ ((3 : Nat) = 1 ∨ (3 : Nat) = 1)
    decide

end camera_ns

/-! ## The two flags -/

namespace camera_ns

open Camera

theorem loop_touched_rest {c c2 : Camera} (h : loop_touched c c2) :
    c2.camera_calibration_file_name = c.camera_calibration_file_name ∧
    c2.chessboard_square_dimension = c.chessboard_square_dimension := by
  obtain ⟨_, _, _, _, _, rfl⟩ := h
  exact ⟨rfl, rfl⟩

/-- Unless the vision library throws, `calibration_backend` that throws has cleared the
in-progress flag; and it never touches the target. -/
theorem calibration_backend_progress (E : Ext) (c : Camera) (w : World) (s : List Image) :
    (calibration_backend E c w s).cam.number_of_images_to_calibrate =
      c.number_of_images_to_calibrate ∧
    (∀ t, (calibration_backend E c w s).res = Res.thrown t → t ≠ Thrown.cv_exception →
      (calibration_backend E c w s).cam.calibration_in_progress = false) := by
  by_cases hs : s.length = 0
  · simp only [calibration_backend, hs, if_true]
    exact ⟨trivial, fun _ _ _ => trivial⟩
  · by_cases hz : c.chessboard_dimensions.width = 0 ∨ c.chessboard_dimensions.height = 0
    · simp only [calibration_backend, hs, hz, if_true, if_false]
      exact ⟨trivial, fun _ _ _ => trivial⟩
    · cases hsq : c.chessboard_square_dimension.isZero
      · simp only [calibration_backend, create_known_board_positions, hs, hz, hsq, if_false,
          Bool.false_eq_true]
        split
        · refine ⟨rfl, fun t ht hne => ?_⟩
          simp only [Res.thrown.injEq] at ht
          exact absurd ht.symm hne
        · exact ⟨rfl, fun t ht _ => by simp at ht⟩
      · simp only [calibration_backend, create_known_board_positions, hs, hz, hsq, if_true,
          if_false]
        exact ⟨rfl, fun _ _ _ => rfl⟩

/-- Unless the vision library throws, the closing `if` of the loop body leaves the
in-progress flag false; and it never touches the target. -/
theorem finish_calibration_progress (E : Ext) (c : Camera) (w : World) (s : List Image) :
    (finish_calibration E c w s).cam.number_of_images_to_calibrate =
      c.number_of_images_to_calibrate ∧
    ((finish_calibration E c w s).res ≠ Res.thrown Thrown.cv_exception →
      (finish_calibration E c w s).cam.calibration_in_progress = false) := by
  obtain ⟨hn1, hp1⟩ := calibration_backend_progress E c w s
  unfold finish_calibration
  cases h1 : (calibration_backend E c w s).res with
  | thrown t =>
    simp only [h1]
    refine ⟨hn1, fun hne => hp1 t h1 ?_⟩
    intro ht
    exact hne (by rw [ht])
  | ok _ =>
    simp only [h1]
    have hsave : ((save_camera_calibration E (calibration_backend E c w s).cam
          (calibration_backend E c w s).world).cam.number_of_images_to_calibrate =
        (calibration_backend E c w s).cam.number_of_images_to_calibrate) ∧
        (∀ t, (save_camera_calibration E (calibration_backend E c w s).cam
          (calibration_backend E c w s).world).res = Res.thrown t →
          (save_camera_calibration E (calibration_backend E c w s).cam
            (calibration_backend E c w s).world).cam.calibration_in_progress = false) := by
      unfold save_camera_calibration
      split
      · exact ⟨rfl, fun _ _ => rfl⟩
      · split
        · exact ⟨rfl, fun t ht => by simp at ht⟩
        · exact ⟨rfl, fun t ht => by simp at ht⟩
    cases h2 : (save_camera_calibration E (calibration_backend E c w s).cam
        (calibration_backend E c w s).world).res with
    | thrown t =>
      simp only [h2]
      exact ⟨by rw [hsave.1, hn1], fun _ => hsave.2 t h2⟩
    | ok _ =>
      simp only [h2]
      exact ⟨by rw [← hn1, ← hsave.1], fun _ => trivial⟩

/-- When `calibrate` ends otherwise than by an exception of the vision library, on a
controller whose in-progress flag was false and whose target is an 8-bit value, the
in-progress flag is false again and the target is what it was. -/
theorem calibrate_keeps_idle (E : Ext) (c : Camera) (w : World) (o : Out Unit)
    (hip : c.calibration_in_progress = false)
    (hn : c.number_of_images_to_calibrate < 256)
    (ho : calibrate E c w = some o) (hres : o.res ≠ Res.thrown Thrown.cv_exception) :
    o.cam.calibration_in_progress = false ∧
    o.cam.number_of_images_to_calibrate = c.number_of_images_to_calibrate := by
  by_cases hloop : (c.camera_id ≠ -1 ∧
      (c.cam.opened = true ∨ w.device_ok c.camera_id = true)) ∧
      c.number_of_images_to_calibrate ≠ 0
  · rw [calibrate_enters_loop E c w hloop.1.1 hloop.1.2 hloop.2] at ho
    rcases calibrate_loop_spec E w.frames (loop_entry c) w [] o rfl
        (Nat.pos_of_ne_zero hloop.2) hn ho with
      ⟨k, c2, w2, _, _, ht, _, _, _, _, _, hfin⟩ | ⟨ht, _, hprog, _, _⟩
    · rw [hfin] at hres ⊢
      obtain ⟨h1, h2⟩ := finish_calibration_progress E c2 w2
        ([] ++ accepted E (loop_entry c).chessboard_dimensions (w.frames.take k)
          (w.keys.take k))
      exact ⟨h2 hres, by rw [h1, (loop_touched_target ht).1]; rfl⟩
    · exact ⟨hprog, by rw [(loop_touched_target ht).1]; rfl⟩
  · have hpre : c.camera_id = -1 ∨
        (c.cam.opened = false ∧ w.device_ok c.camera_id = false) ∨
        c.number_of_images_to_calibrate = 0 := by
      by_cases hid : c.camera_id = -1
      · exact Or.inl hid
      · by_cases hn0 : c.number_of_images_to_calibrate = 0
        · exact Or.inr (Or.inr hn0)
        · right; left
          have := fun h => hloop ⟨⟨hid, h⟩, hn0⟩
          cases h1 : c.cam.opened <;> cases h2 : w.device_ok c.camera_id <;> simp_all
    obtain ⟨o2, ho2, _, ⟨v, hcam⟩, _⟩ := calibrate_before_loop E c w hpre
    rw [ho2] at ho
    cases ho
    rw [hcam]
    exact ⟨hip, rfl⟩

/-- What `load_camera_calibration_data` does to the in-progress flag and the target. -/
theorem load_keeps_idle (E : Ext) (c : Camera) (w : World)
    (hip : c.calibration_in_progress = false) :
    (load_camera_calibration_data E c w).cam.calibration_in_progress = false ∧
    (load_camera_calibration_data E c w).cam.number_of_images_to_calibrate =
      c.number_of_images_to_calibrate := by
  unfold load_camera_calibration_data
  split
  · exact ⟨rfl, rfl⟩
  · split
    · exact ⟨rfl, rfl⟩
    · rcases h1 : read_matrix E (fun rows columns => Mat.create rows columns w.junk)
          c.cam_matrix _ with ⟨m, _ | toks⟩
      · exact ⟨hip, rfl⟩
      · rcases h2 : read_matrix E Mat.zeros c.dist_coeffs toks with ⟨m2, _ | toks2⟩
        · simp only [h2]
          exact ⟨hip, trivial⟩
        · simp only [h2]
          exact ⟨hip, rfl⟩

/-- The member `read` touches neither the in-progress flag nor the target. -/
theorem read_keeps_flags (c : Camera) (w : World) (o : Out Bool)
    (h : Camera.read c w = some o) :
    o.cam.calibration_in_progress = c.calibration_in_progress ∧
    o.cam.number_of_images_to_calibrate = c.number_of_images_to_calibrate := by
  unfold Camera.read ensure_open open_ at h
  by_cases hid : c.camera_id = -1
  · rw [if_pos hid] at h
    cases h
    exact ⟨rfl, rfl⟩
  · rw [if_neg hid] at h
    cases hop : c.cam.opened <;> cases hdev : w.device_ok c.camera_id <;>
      cases hf : w.frames <;> simp [hop, hdev, hf, raise] at h <;>
      (subst h; exact ⟨rfl, rfl⟩)

/-- Every state left by a sequence of calls on a fresh controller, none ended by an
exception of the vision library, has the in-progress flag false and an 8-bit target. -/
theorem reachable_idle (E : Ext) (c : Camera) (h : Reachable E c) :
    c.calibration_in_progress = false ∧ c.number_of_images_to_calibrate < 256 := by
  induction h with
  | fresh raw => exact ⟨rfl, Nat.mod_lt _ (by decide)⟩
  | call c op w o _ hrun hres ih =>
    cases op with
    | set_number_of_images_to_calibrate n =>
      simp only [Op.run, Option.some.injEq] at hrun
      subst hrun
      exact ⟨ih.1, Nat.mod_lt _ (by decide)⟩
    | calibrate =>
      obtain ⟨h1, h2⟩ := calibrate_keeps_idle E c w o ih.1 ih.2 hrun hres
      exact ⟨h1, by rw [h2]; exact ih.2⟩
    | load_camera_calibration_data =>
      simp only [Op.run, Option.some.injEq] at hrun
      subst hrun
      obtain ⟨h1, h2⟩ := load_keeps_idle E c w ih.1
      exact ⟨h1, by rw [h2]; exact ih.2⟩
    | compensate_distortions ct =>
      simp only [Op.run, Option.some.injEq] at hrun
      subst hrun
      unfold compensate_distortions
      split
      · exact ih
      · split
        · exact ih
        · cases ct with
          | remap =>
            simp only
            split <;> exact ih
          | undistort => exact ih
          | other _ => exact ih
    | show_frame_raw =>
      simp only [Op.run, Option.some.injEq] at hrun
      subst hrun
      unfold show_frame_raw
      split <;> exact ih
    | show_frame_compensated =>
      simp only [Op.run, Option.some.injEq] at hrun
      subst hrun
      unfold show_frame_compensated
      split <;> exact ih
    | open_ =>
      simp only [Op.run, Option.some.injEq] at hrun
      subst hrun
      simp only [forget_value, open_]
      split <;> exact ih
    | read =>
      simp only [Op.run, Option.map_eq_some'] at hrun
      obtain ⟨o2, ho2, rfl⟩ := hrun
      obtain ⟨h1, h2⟩ := read_keeps_flags c w o2 ho2
      exact ⟨h1.trans ih.1, by rw [show (forget_value o2).cam = o2.cam from rfl, h2]; exact ih.2⟩
    | _ =>
      simp only [Op.run, Option.some.injEq] at hrun
      subst hrun
      exact ih

end camera_ns

namespace camera_ns

open Camera

/-- The last of the states of the closing `if` is the state `finish_calibration` leaves. -/
theorem finish_calibration_states_last (E : Ext) (c : Camera) (w : World) (s : List Image) :
    (finish_calibration_states E c w s).getLast? = some (finish_calibration E c w s).cam := by
  unfold finish_calibration_states finish_calibration
  cases h1 : (calibration_backend E c w s).res with
  | thrown t => simp only [h1]; rfl
  | ok _ =>
    simp only [h1]
    cases h2 : (save_camera_calibration E (calibration_backend E c w s).cam
        (calibration_backend E c w s).world).res with
    | thrown t => simp only [h2]; rfl
    | ok _ => simp only [h2]; rfl

/-- C14 as stated fails, during an operation and after one.  In the run of a configured
controller with a target of one image that saves its first frame, the closing `if` of the
loop passes through a state with both flags true: `calibrated = true` is executed before
`calibration_in_progress = false`.  And when the solver throws, `calibrate` is left with
the in-progress flag still true, after which a successful load leaves both flags true. -/
theorem flags_both_true_inside_and_after_calibrate :
    calibrate Demo.ext (Demo.configured 1) (Demo.world [some Demo.board] [32]) =
      some (finish_calibration Demo.ext Demo.at_target (Demo.world [] []) [Demo.board]) ∧
    (∃ s ∈ finish_calibration_states Demo.ext Demo.at_target (Demo.world [] [])
        [Demo.board],
      s.calibrated = true ∧ s.calibration_in_progress = true) ∧
    (∃ o, calibrate Demo.ext_throwing (Demo.configured 1)
        (Demo.world [some Demo.board] [32]) = some o ∧
      o.res = Res.thrown Thrown.cv_exception ∧
      o.cam.calibration_in_progress = true ∧
      (load_camera_calibration_data Demo.ext_throwing o.cam
        (Demo.world_with_file "cam_calib.txt" ["1", "1", "5", "1", "1", "0"])).res =
          Res.ok () ∧
      (load_camera_calibration_data Demo.ext_throwing o.cam
        (Demo.world_with_file "cam_calib.txt"
          ["1", "1", "5", "1", "1", "0"])).cam.calibrated = true ∧
      (load_camera_calibration_data Demo.ext_throwing o.cam
        (Demo.world_with_file "cam_calib.txt"
          ["1", "1", "5", "1", "1", "0"])).cam.calibration_in_progress = true) :=
  ⟨rfl,
   ⟨_, List.mem_cons_of_mem _ (List.mem_cons_of_mem _ (List.mem_cons_self _ _)), rfl, rfl⟩,
   ⟨_, rfl, rfl, rfl, rfl, rfl, rfl⟩⟩

/-- C14, amended: in every state left by a sequence of operations on a fresh controller,
none of them ended by an exception of the vision library, the in-progress flag is false,
so the two flags are not both true; and when a calibration run started in such a state
completes (the solver was called and `calibrate` returns), the calibrated flag is true
and the in-progress flag is false. -/
theorem flags_not_both_true_between_operations (E : Ext) (c : Camera)
    (h : Reachable E c) :
    c.calibration_in_progress = false ∧
    ¬ (c.calibrated = true ∧ c.calibration_in_progress = true) ∧
    (∀ (w : World) (o : Out Unit), calibrate E c w = some o → o.res = Res.ok () →
      o.world.backend_calls ≠ w.backend_calls →
      o.cam.calibrated = true ∧ o.cam.calibration_in_progress = false) := by
  obtain ⟨hip, hn⟩ := reachable_idle E c h
  refine ⟨hip, fun hboth => ?_, fun w o ho hres hcalls => ?_⟩
  · rw [hip] at hboth
    exact absurd hboth.2 (by decide)
  · by_cases hloop : (c.camera_id ≠ -1 ∧
        (c.cam.opened = true ∨ w.device_ok c.camera_id = true)) ∧
        c.number_of_images_to_calibrate ≠ 0
    · rw [calibrate_enters_loop E c w hloop.1.1 hloop.1.2 hloop.2] at ho
      rcases calibrate_loop_spec E w.frames (loop_entry c) w [] o rfl
          (Nat.pos_of_ne_zero hloop.2) hn ho with
        ⟨k, c2, w2, _, _, _, _, _, _, _, _, hfin⟩ | ⟨_, hw, _, _, _⟩
      · rw [hfin] at hres ⊢
        exact (finish_calibration_spec E c2 w2 _).2.2.1 hres
      · exact absurd (input_consumed_rest hw).1 hcalls
    · have hpre : c.camera_id = -1 ∨
          (c.cam.opened = false ∧ w.device_ok c.camera_id = false) ∨
          c.number_of_images_to_calibrate = 0 := by
        by_cases hid : c.camera_id = -1
        · exact Or.inl hid
        · by_cases hn0 : c.number_of_images_to_calibrate = 0
          · exact Or.inr (Or.inr hn0)
          · right; left
            have := fun h => hloop ⟨⟨hid, h⟩, hn0⟩
            cases h1 : c.cam.opened <;> cases h2 : w.device_ok c.camera_id <;> simp_all
      obtain ⟨o2, ho2, hworld, _, _⟩ := calibrate_before_loop E c w hpre
      rw [ho2] at ho
      cases ho
      exact absurd (by rw [hworld]) hcalls

/-- The state left by the calls of `main.cpp` for a calibration run with a target of one
image, followed by a run of `calibrate` that saves its first frame and completes. -/
theorem flags_not_both_true_between_operations_witness :
    (finish_calibration Demo.ext Demo.at_target (Demo.world [] [])
      [Demo.board]).cam.calibration_in_progress = false ∧
    ¬ ((finish_calibration Demo.ext Demo.at_target (Demo.world [] [])
        [Demo.board]).cam.calibrated = true ∧
      (finish_calibration Demo.ext Demo.at_target (Demo.world [] [])
        [Demo.board]).cam.calibration_in_progress = true) :=
  have h := flags_not_both_true_between_operations Demo.ext _
    (Reachable.call _ Op.calibrate (Demo.world [some Demo.board] [32])
      (finish_calibration Demo.ext Demo.at_target (Demo.world [] []) [Demo.board])
      (Reachable.call _ (Op.set_number_of_images_to_calibrate 1) (Demo.world [] []) _
        (Reachable.call _ (Op.set_chessboard_square_dimension ⟨1021021100⟩)
          (Demo.world [] []) _
          (Reachable.call _ (Op.set_chessboard_dimensions 6 9) (Demo.world [] []) _
            (Reachable.call _ (Op.set_camera_calibration_results_file_name "cam_calib.txt")
              (Demo.world [] []) _
              (Reachable.call _ (Op.set_video_source 0) (Demo.world [] []) _
                (Reachable.fresh Demo.raw) rfl (by decide))
              rfl (by decide))
            rfl (by decide))
          rfl (by decide))
        rfl (by decide))
      rfl (by decide))
  ⟨h.1, h.2.1⟩

end camera_ns
